import Mathlib

set_option maxRecDepth 10000

/-!
Verification of the GlimmerFS LNet wire layer (`wire/lnet` and the endian
utilities) against its specification.  Go code is shallowly embedded:
machine integers become `Nat` with explicit `% 2^w` where overflow matters,
byte streams become `List Nat`, fallible operations return `Except`/`Option`,
and the process-wide random source is passed as an explicit oracle argument.
-/

/-- A `binary.ByteOrder` value: the code only ever distinguishes little
from big endian (`binary.NativeEndian` is classified at startup). -/
inductive ByteOrder where
  | le
  | be
deriving DecidableEq, Repr

/-- Little-endian byte decomposition of `v` into `k` bytes, least
significant first (the layout `binary.LittleEndian.PutUintN` produces). -/
def bytesLE : Nat → Nat → List Nat
  | 0, _ => []
  | k + 1, v => v % 256 :: bytesLE k (v / 256)

/-- Value of a little-endian byte list (`binary.LittleEndian.UintN`). -/
def fromLE : List Nat → Nat
  | [] => 0
  | b :: bs => b + 256 * fromLE bs

/-- `byteOrder.PutUintN`: serialize `v` into `k` bytes in order `o`. -/
def putUint (o : ByteOrder) (k v : Nat) : List Nat :=
  match o with
  | .le => bytesLE k v
  | .be => (bytesLE k v).reverse

/-- `byteOrder.UintN`: the value of a byte list read in order `o`. -/
def getUint (o : ByteOrder) (bs : List Nat) : Nat :=
  match o with
  | .le => fromLE bs
  | .be => fromLE bs.reverse

/-- `io.ReadFull` / `binary.Read` on a flat stream: take exactly `n` bytes
or fail (any short read surfaces as an error in the Go code). -/
def readExact (n : Nat) (input : List Nat) : Option (List Nat × List Nat) :=
  if n ≤ input.length then some (input.take n, input.drop n) else none

theorem length_bytesLE (k v : Nat) : (bytesLE k v).length = k := by
  induction k generalizing v with
  | zero => rfl
  | succ k ih => simp [bytesLE, ih]

theorem length_putUint (o : ByteOrder) (k v : Nat) : (putUint o k v).length = k := by
  cases o <;> simp [putUint, length_bytesLE]

theorem fromLE_bytesLE (k v : Nat) : fromLE (bytesLE k v) = v % 2 ^ (8 * k) := by
  induction k generalizing v with
  | zero => simp [bytesLE, fromLE, Nat.mod_one]
  | succ k ih =>
    simp only [bytesLE, fromLE, ih]
    have h1 : 2 ^ (8 * (k + 1)) = 256 * 2 ^ (8 * k) := by ring
    rw [h1, Nat.mod_mul]

theorem getUint_putUint (o : ByteOrder) (k v : Nat) :
    getUint o (putUint o k v) = v % 2 ^ (8 * k) := by
  cases o <;> simp [getUint, putUint, fromLE_bytesLE]

theorem bytesLE_fromLE {bs : List Nat} (h : ∀ b ∈ bs, b < 256) :
    bytesLE bs.length (fromLE bs) = bs := by
  induction bs with
  | nil => rfl
  | cons b bs ih =>
    have hb : b < 256 := h b (by simp)
    simp only [List.length_cons, bytesLE, fromLE]
    have h1 : (b + 256 * fromLE bs) % 256 = b := by omega
    have h2 : (b + 256 * fromLE bs) / 256 = fromLE bs := by omega
    rw [h1, h2, ih fun x hx => h x (by simp [hx])]

theorem putUint_getUint {o : ByteOrder} {bs : List Nat} (h : ∀ b ∈ bs, b < 256) :
    putUint o bs.length (getUint o bs) = bs := by
  cases o with
  | le => simpa [putUint, getUint] using bytesLE_fromLE h
  | be =>
    simp only [putUint, getUint]
    rw [← List.length_reverse bs, bytesLE_fromLE (by simpa using h), List.reverse_reverse]

theorem putUint_lt (o : ByteOrder) (k v : Nat) : ∀ b ∈ putUint o k v, b < 256 := by
  have hle : ∀ k v, ∀ b ∈ bytesLE k v, b < 256 := by
    intro k
    induction k with
    | zero => intro v b hb; simp [bytesLE] at hb
    | succ k ih =>
      intro v b hb
      simp only [bytesLE, List.mem_cons] at hb
      rcases hb with h | h
      · omega
      · exact ih _ b h
  cases o with
  | le => exact hle k v
  | be =>
    intro b hb
    simp only [putUint, List.mem_reverse] at hb
    exact hle k v b hb

theorem readExact_append {n : Nat} {xs ys : List Nat} (h : xs.length = n) :
    readExact n (xs ++ ys) = some (xs, ys) := by
  subst h
  simp [readExact, List.take_left, List.drop_left]

theorem fromLE_append (xs ys : List Nat) :
    fromLE (xs ++ ys) = fromLE xs + 2 ^ (8 * xs.length) * fromLE ys := by
  induction xs with
  | nil => simp [fromLE]
  | cons b bs ih =>
    simp only [List.cons_append, fromLE, List.length_cons, List.append_eq]
    rw [ih]
    have : 2 ^ (8 * (bs.length + 1)) = 256 * 2 ^ (8 * bs.length) := by ring
    rw [this]
    ring

/-- Value of big-endian append: high part shifted past the low part. -/
theorem getUint_be_append (xs ys : List Nat) :
    getUint .be (xs ++ ys) = getUint .be xs * 2 ^ (8 * ys.length) + getUint .be ys := by
  simp only [getUint, List.reverse_append, fromLE_append, List.length_reverse]
  ring

/- ## Bitwise arithmetic bridges

These connect the Go source's `&`, `|`, `>>`, `<<` to `Nat` division and
multiplication so that `omega` can finish the arithmetic. -/

theorem lor_eq_add (a b : Nat) (h : a &&& b = 0) : a ||| b = a + b := by
  induction a using Nat.binaryRec generalizing b with
  | z => simp
  | f abit m ih =>
    induction b using Nat.binaryRec with
    | z => simp
    | f bbit n _ =>
      rw [Nat.land_bit] at h
      rw [Nat.bit_eq_zero_iff] at h
      obtain ⟨h1, h2⟩ := h
      rw [Nat.lor_bit, ih n h1, Nat.bit_val, Nat.bit_val, Nat.bit_val]
      cases abit <;> cases bbit <;> simp_all <;> omega

theorem land_eq_zero_of_lt_dvd {a b n : Nat} (ha : a < 2 ^ n) (hb : 2 ^ n ∣ b) :
    a &&& b = 0 := by
  apply Nat.eq_of_testBit_eq
  intro i
  simp only [Nat.testBit_land, Nat.zero_testBit]
  by_cases h : i < n
  · obtain ⟨c, rfl⟩ := hb
    have h2 : 2 ^ n * c / 2 ^ i = 2 ^ (n - i) * c := by
      rw [Nat.mul_comm, Nat.mul_div_assoc c (Nat.pow_dvd_pow 2 (le_of_lt h)),
        Nat.pow_div (le_of_lt h) (by norm_num), Nat.mul_comm]
    have h3 : (2 ^ n * c).testBit i = false := by
      rw [Nat.testBit_to_div_mod, h2]
      have hmod : 2 ^ (n - i) * c % 2 = 0 := by
        have hn : n - i = (n - i - 1) + 1 := by omega
        rw [hn, Nat.pow_succ, Nat.mul_assoc, Nat.mul_comm 2 c, ← Nat.mul_assoc,
          Nat.mul_mod_left]
      simp [hmod]
    simp [h3]
  · have : a.testBit i = false :=
      Nat.testBit_eq_false_of_lt
        (lt_of_lt_of_le ha (Nat.pow_le_pow_right (by norm_num) (le_of_not_lt h)))
    simp [this]

theorem lor_eq_add_of_lt_dvd {a b : Nat} (n : Nat) (ha : a < 2 ^ n) (hb : 2 ^ n ∣ b) :
    a ||| b = a + b :=
  lor_eq_add a b (land_eq_zero_of_lt_dvd ha hb)

theorem and_mask_window (a k m : Nat) :
    a &&& ((2 ^ m - 1) <<< k) = (a / 2 ^ k % 2 ^ m) * 2 ^ k := by
  apply Nat.eq_of_testBit_eq
  intro i
  rw [← Nat.shiftLeft_eq, ← Nat.shiftRight_eq_div_pow]
  simp only [Nat.testBit_land, Nat.testBit_shiftLeft, Nat.testBit_mod_two_pow,
    Nat.testBit_shiftRight, Nat.testBit_two_pow_sub_one]
  by_cases h : k ≤ i
  · rw [Nat.add_sub_cancel' h]
    simp only [h]
    by_cases h2 : i - k < m <;> simp [h2, Bool.and_comm]
  · simp [h]

theorem and_byte0 (a : Nat) : a &&& 255 = a % 256 := Nat.and_pow_two_sub_one_eq_mod a 8

theorem and_mask16 (a : Nat) : a &&& 65535 = a % 65536 := Nat.and_pow_two_sub_one_eq_mod a 16

theorem and_mask32 (a : Nat) : a &&& 4294967295 = a % 4294967296 :=
  Nat.and_pow_two_sub_one_eq_mod a 32

theorem and_byte1 (a : Nat) : a &&& 65280 = a / 256 % 256 * 256 := by
  have := and_mask_window a 8 8
  norm_num [Nat.shiftLeft_eq] at this
  exact this

theorem and_byte2 (a : Nat) : a &&& 16711680 = a / 65536 % 256 * 65536 := by
  have := and_mask_window a 16 8
  norm_num [Nat.shiftLeft_eq] at this
  exact this

theorem and_byte3 (a : Nat) : a &&& 4278190080 = a / 16777216 % 256 * 16777216 := by
  have := and_mask_window a 24 8
  norm_num [Nat.shiftLeft_eq] at this
  exact this

theorem and_byte4 (a : Nat) : a &&& 1095216660480 = a / 4294967296 % 256 * 4294967296 := by
  have := and_mask_window a 32 8
  norm_num [Nat.shiftLeft_eq] at this
  exact this

theorem and_byte5 (a : Nat) :
    a &&& 280375465082880 = a / 1099511627776 % 256 * 1099511627776 := by
  have := and_mask_window a 40 8
  norm_num [Nat.shiftLeft_eq] at this
  exact this

theorem and_byte6 (a : Nat) :
    a &&& 71776119061217280 = a / 281474976710656 % 256 * 281474976710656 := by
  have := and_mask_window a 48 8
  norm_num [Nat.shiftLeft_eq] at this
  exact this

theorem and_byte7 (a : Nat) :
    a &&& 18374686479671623680 = a / 72057594037927936 % 256 * 72057594037927936 := by
  have := and_mask_window a 56 8
  norm_num [Nat.shiftLeft_eq] at this
  exact this

/- ## Endian utilities (`endian.go`, `src/unnamed/part_008`) -/

/-- `IsLittleEndian`: the probe always classifies the two concrete orders. -/
def IsLittleEndian (o : ByteOrder) : Bool :=
  match o with
  | .le => true
  | .be => false

/-- `IsBigEndian` from the source: the negation of `IsLittleEndian`. -/
def IsBigEndian (o : ByteOrder) : Bool := !IsLittleEndian o

/-- `GetOppositeByteOrder` from the source. -/
def GetOppositeByteOrder (o : ByteOrder) : ByteOrder :=
  if IsLittleEndian o then .be else .le

/-- `DEFAULT_BYTE_ORDER`: `init()` sets it to the host order; the repo's
native-endian test asserts little-endian on the common platforms, which is
the configuration modelled here. -/
def DEFAULT_BYTE_ORDER : ByteOrder := .le

/-- `DEFAULT_PORT` (988), the traditional LNet port. -/
def DEFAULT_PORT : Nat := 988

/-- `Swab16`: `(x >> 8) | (x << 8)` on `uint16` (left shift wraps mod 2^16). -/
def Swab16 (x : Nat) : Nat :=
  (x >>> 8) ||| ((x <<< 8) % 65536)

/-- `Swab32`: byte reversal of a `uint32` exactly as written in the source. -/
def Swab32 (x : Nat) : Nat :=
  ((x >>> 24) &&& 0xFF) ||| ((x >>> 8) &&& 0xFF00) |||
    (((x <<< 8) % 4294967296) &&& 0xFF0000) ||| (((x <<< 24) % 4294967296) &&& 0xFF000000)

/-- `Swab64`: byte reversal of a `uint64` exactly as written in the source. -/
def Swab64 (x : Nat) : Nat :=
  ((x >>> 56) &&& 0xFF) ||| ((x >>> 40) &&& 0xFF00) ||| ((x >>> 24) &&& 0xFF0000) |||
    ((x >>> 8) &&& 0xFF000000) |||
    (((x <<< 8) % 18446744073709551616) &&& 0xFF00000000) |||
    (((x <<< 24) % 18446744073709551616) &&& 0xFF0000000000) |||
    (((x <<< 40) % 18446744073709551616) &&& 0xFF000000000000) |||
    (((x <<< 56) % 18446744073709551616) &&& 0xFF00000000000000)

theorem swab16_arith (y : Nat) (hy : y < 65536) : Swab16 y = y / 256 + y % 256 * 256 := by
  unfold Swab16
  rw [Nat.shiftRight_eq_div_pow, Nat.shiftLeft_eq]
  norm_num
  have e1 : y / 256 ||| y * 256 % 65536 = y / 256 + y * 256 % 65536 :=
    lor_eq_add_of_lt_dvd 8 (by omega) ⟨y % 256, by omega⟩
  rw [e1]
  omega

theorem swab32_arith (y : Nat) (hy : y < 4294967296) : Swab32 y =
    y / 16777216 + y / 65536 % 256 * 256 + y / 256 % 256 * 65536 + y % 256 * 16777216 := by
  unfold Swab32
  rw [Nat.shiftRight_eq_div_pow, Nat.shiftRight_eq_div_pow, Nat.shiftLeft_eq, Nat.shiftLeft_eq]
  norm_num
  rw [and_byte0, and_byte1, and_byte2, and_byte3]
  have e1 : y / 16777216 % 256 ||| y / 256 / 256 % 256 * 256
      = y / 16777216 % 256 + y / 256 / 256 % 256 * 256 :=
    lor_eq_add_of_lt_dvd 8 (by omega) (Dvd.intro (y / 256 / 256 % 256) (by ring))
  rw [e1]
  have e2 : y / 16777216 % 256 + y / 256 / 256 % 256 * 256 |||
        y * 256 % 4294967296 / 65536 % 256 * 65536
      = y / 16777216 % 256 + y / 256 / 256 % 256 * 256
        + y * 256 % 4294967296 / 65536 % 256 * 65536 :=
    lor_eq_add_of_lt_dvd 16 (by omega)
      (Dvd.intro (y * 256 % 4294967296 / 65536 % 256) (by ring))
  rw [e2]
  have e3 : y / 16777216 % 256 + y / 256 / 256 % 256 * 256
        + y * 256 % 4294967296 / 65536 % 256 * 65536 |||
        y * 16777216 % 4294967296 / 16777216 % 256 * 16777216
      = y / 16777216 % 256 + y / 256 / 256 % 256 * 256
        + y * 256 % 4294967296 / 65536 % 256 * 65536
        + y * 16777216 % 4294967296 / 16777216 % 256 * 16777216 :=
    lor_eq_add_of_lt_dvd 24 (by omega)
      (Dvd.intro (y * 16777216 % 4294967296 / 16777216 % 256) (by ring))
  rw [e3]
  clear e1 e2 e3
  omega

theorem swab64_arith (y : Nat) (hy : y < 18446744073709551616) : Swab64 y =
    y / 72057594037927936 + y / 281474976710656 % 256 * 256
      + y / 1099511627776 % 256 * 65536 + y / 4294967296 % 256 * 16777216
      + y / 16777216 % 256 * 4294967296 + y / 65536 % 256 * 1099511627776
      + y / 256 % 256 * 281474976710656 + y % 256 * 72057594037927936 := by
  have h0 : (y >>> 56) &&& 0xFF = y / 72057594037927936 := by
    rw [Nat.shiftRight_eq_div_pow, and_byte0]; norm_num; omega
  have h1 : (y >>> 40) &&& 0xFF00 = y / 281474976710656 % 256 * 256 := by
    rw [Nat.shiftRight_eq_div_pow, and_byte1]; norm_num
    have : y / 1099511627776 / 256 = y / 281474976710656 := by omega
    rw [this]
  have h2 : (y >>> 24) &&& 0xFF0000 = y / 1099511627776 % 256 * 65536 := by
    rw [Nat.shiftRight_eq_div_pow, and_byte2]; norm_num
    have : y / 16777216 / 65536 = y / 1099511627776 := by omega
    rw [this]
  have h3 : (y >>> 8) &&& 0xFF000000 = y / 4294967296 % 256 * 16777216 := by
    rw [Nat.shiftRight_eq_div_pow, and_byte3]; norm_num
    have : y / 256 / 16777216 = y / 4294967296 := by omega
    rw [this]
  have h4 : ((y <<< 8) % 18446744073709551616) &&& 0xFF00000000
      = y / 16777216 % 256 * 4294967296 := by
    rw [Nat.shiftLeft_eq, and_byte4]; norm_num
    have : y * 256 % 18446744073709551616 / 4294967296 % 256 = y / 16777216 % 256 := by omega
    rw [this]
  have h5 : ((y <<< 24) % 18446744073709551616) &&& 0xFF0000000000
      = y / 65536 % 256 * 1099511627776 := by
    rw [Nat.shiftLeft_eq, and_byte5]; norm_num
    have : y * 16777216 % 18446744073709551616 / 1099511627776 % 256 = y / 65536 % 256 := by
      omega
    rw [this]
  have h6 : ((y <<< 40) % 18446744073709551616) &&& 0xFF000000000000
      = y / 256 % 256 * 281474976710656 := by
    rw [Nat.shiftLeft_eq, and_byte6]; norm_num
    have : y * 1099511627776 % 18446744073709551616 / 281474976710656 % 256
        = y / 256 % 256 := by omega
    rw [this]
  have h7 : ((y <<< 56) % 18446744073709551616) &&& 0xFF00000000000000
      = y % 256 * 72057594037927936 := by
    rw [Nat.shiftLeft_eq, and_byte7]; norm_num
    have : y * 72057594037927936 % 18446744073709551616 / 72057594037927936 % 256
        = y % 256 := by omega
    rw [this]
  unfold Swab64
  rw [h0, h1, h2, h3, h4, h5, h6, h7]
  have e1 : y / 72057594037927936 ||| y / 281474976710656 % 256 * 256
      = y / 72057594037927936 + y / 281474976710656 % 256 * 256 :=
    lor_eq_add_of_lt_dvd 8 (by omega) (Dvd.intro (y / 281474976710656 % 256) (by ring))
  rw [e1]
  have e2 : y / 72057594037927936 + y / 281474976710656 % 256 * 256
        ||| y / 1099511627776 % 256 * 65536
      = y / 72057594037927936 + y / 281474976710656 % 256 * 256
        + y / 1099511627776 % 256 * 65536 :=
    lor_eq_add_of_lt_dvd 16 (by omega) (Dvd.intro (y / 1099511627776 % 256) (by ring))
  rw [e2]
  have e3 : y / 72057594037927936 + y / 281474976710656 % 256 * 256
        + y / 1099511627776 % 256 * 65536 ||| y / 4294967296 % 256 * 16777216
      = y / 72057594037927936 + y / 281474976710656 % 256 * 256
        + y / 1099511627776 % 256 * 65536 + y / 4294967296 % 256 * 16777216 :=
    lor_eq_add_of_lt_dvd 24 (by omega) (Dvd.intro (y / 4294967296 % 256) (by ring))
  rw [e3]
  have e4 : y / 72057594037927936 + y / 281474976710656 % 256 * 256
        + y / 1099511627776 % 256 * 65536 + y / 4294967296 % 256 * 16777216
        ||| y / 16777216 % 256 * 4294967296
      = y / 72057594037927936 + y / 281474976710656 % 256 * 256
        + y / 1099511627776 % 256 * 65536 + y / 4294967296 % 256 * 16777216
        + y / 16777216 % 256 * 4294967296 :=
    lor_eq_add_of_lt_dvd 32 (by omega) (Dvd.intro (y / 16777216 % 256) (by ring))
  rw [e4]
  have e5 : y / 72057594037927936 + y / 281474976710656 % 256 * 256
        + y / 1099511627776 % 256 * 65536 + y / 4294967296 % 256 * 16777216
        + y / 16777216 % 256 * 4294967296 ||| y / 65536 % 256 * 1099511627776
      = y / 72057594037927936 + y / 281474976710656 % 256 * 256
        + y / 1099511627776 % 256 * 65536 + y / 4294967296 % 256 * 16777216
        + y / 16777216 % 256 * 4294967296 + y / 65536 % 256 * 1099511627776 :=
    lor_eq_add_of_lt_dvd 40 (by omega) (Dvd.intro (y / 65536 % 256) (by ring))
  rw [e5]
  have e6 : y / 72057594037927936 + y / 281474976710656 % 256 * 256
        + y / 1099511627776 % 256 * 65536 + y / 4294967296 % 256 * 16777216
        + y / 16777216 % 256 * 4294967296 + y / 65536 % 256 * 1099511627776
        ||| y / 256 % 256 * 281474976710656
      = y / 72057594037927936 + y / 281474976710656 % 256 * 256
        + y / 1099511627776 % 256 * 65536 + y / 4294967296 % 256 * 16777216
        + y / 16777216 % 256 * 4294967296 + y / 65536 % 256 * 1099511627776
        + y / 256 % 256 * 281474976710656 :=
    lor_eq_add_of_lt_dvd 48 (by omega) (Dvd.intro (y / 256 % 256) (by ring))
  rw [e6]
  have e7 : y / 72057594037927936 + y / 281474976710656 % 256 * 256
        + y / 1099511627776 % 256 * 65536 + y / 4294967296 % 256 * 16777216
        + y / 16777216 % 256 * 4294967296 + y / 65536 % 256 * 1099511627776
        + y / 256 % 256 * 281474976710656 ||| y % 256 * 72057594037927936
      = y / 72057594037927936 + y / 281474976710656 % 256 * 256
        + y / 1099511627776 % 256 * 65536 + y / 4294967296 % 256 * 16777216
        + y / 16777216 % 256 * 4294967296 + y / 65536 % 256 * 1099511627776
        + y / 256 % 256 * 281474976710656 + y % 256 * 72057594037927936 :=
    lor_eq_add_of_lt_dvd 56 (by omega) (Dvd.intro (y % 256) (by ring))
  rw [e7]

theorem swab64_bytes (a b c d e f g h : Nat) (ha : a < 256) (hb : b < 256) (hc : c < 256)
    (hd : d < 256) (he : e < 256) (hf : f < 256) (hg : g < 256) (hh : h < 256) :
    Swab64 (a + b * 256 + c * 65536 + d * 16777216 + e * 4294967296 + f * 1099511627776
        + g * 281474976710656 + h * 72057594037927936)
      = h + g * 256 + f * 65536 + e * 16777216 + d * 4294967296 + c * 1099511627776
        + b * 281474976710656 + a * 72057594037927936 := by
  rw [swab64_arith _ (by omega)]
  have k7 : (a + b * 256 + c * 65536 + d * 16777216 + e * 4294967296 + f * 1099511627776
      + g * 281474976710656 + h * 72057594037927936) / 72057594037927936 = h := by omega
  have k6 : (a + b * 256 + c * 65536 + d * 16777216 + e * 4294967296 + f * 1099511627776
      + g * 281474976710656 + h * 72057594037927936) / 281474976710656 % 256 = g := by omega
  have k5 : (a + b * 256 + c * 65536 + d * 16777216 + e * 4294967296 + f * 1099511627776
      + g * 281474976710656 + h * 72057594037927936) / 1099511627776 % 256 = f := by omega
  have k4 : (a + b * 256 + c * 65536 + d * 16777216 + e * 4294967296 + f * 1099511627776
      + g * 281474976710656 + h * 72057594037927936) / 4294967296 % 256 = e := by omega
  have k3 : (a + b * 256 + c * 65536 + d * 16777216 + e * 4294967296 + f * 1099511627776
      + g * 281474976710656 + h * 72057594037927936) / 16777216 % 256 = d := by omega
  have k2 : (a + b * 256 + c * 65536 + d * 16777216 + e * 4294967296 + f * 1099511627776
      + g * 281474976710656 + h * 72057594037927936) / 65536 % 256 = c := by omega
  have k1 : (a + b * 256 + c * 65536 + d * 16777216 + e * 4294967296 + f * 1099511627776
      + g * 281474976710656 + h * 72057594037927936) / 256 % 256 = b := by omega
  have k0 : (a + b * 256 + c * 65536 + d * 16777216 + e * 4294967296 + f * 1099511627776
      + g * 281474976710656 + h * 72057594037927936) % 256 = a := by omega
  rw [k7, k6, k5, k4, k3, k2, k1, k0]

theorem swab64_involutive {x : Nat} (hx : x < 18446744073709551616) :
    Swab64 (Swab64 x) = x := by
  have hd : x = x % 256 + x / 256 % 256 * 256 + x / 65536 % 256 * 65536
      + x / 16777216 % 256 * 16777216 + x / 4294967296 % 256 * 4294967296
      + x / 1099511627776 % 256 * 1099511627776 + x / 281474976710656 % 256 * 281474976710656
      + x / 72057594037927936 * 72057594037927936 := by omega
  conv_lhs => rw [hd]
  rw [swab64_bytes _ _ _ _ _ _ _ _ (by omega) (by omega) (by omega) (by omega) (by omega)
    (by omega) (by omega) (by omega)]
  rw [swab64_bytes _ _ _ _ _ _ _ _ (by omega) (by omega) (by omega) (by omega) (by omega)
    (by omega) (by omega) (by omega)]
  omega

theorem swab16_bytes (a b : Nat) (ha : a < 256) (hb : b < 256) :
    Swab16 (a + b * 256) = b + a * 256 := by
  rw [swab16_arith _ (by omega)]
  omega

theorem swab16_involutive {x : Nat} (hx : x < 65536) : Swab16 (Swab16 x) = x := by
  have hd : x = x % 256 + x / 256 * 256 := by omega
  conv_lhs => rw [hd]
  rw [swab16_bytes _ _ (by omega) (by omega), swab16_bytes _ _ (by omega) (by omega)]
  omega

theorem swab32_bytes (a b c d : Nat) (ha : a < 256) (hb : b < 256) (hc : c < 256)
    (hd : d < 256) :
    Swab32 (a + b * 256 + c * 65536 + d * 16777216)
      = d + c * 256 + b * 65536 + a * 16777216 := by
  rw [swab32_arith _ (by omega)]
  omega

theorem swab32_involutive {x : Nat} (hx : x < 4294967296) : Swab32 (Swab32 x) = x := by
  have hd : x = x % 256 + x / 256 % 256 * 256 + x / 65536 % 256 * 65536
      + x / 16777216 * 16777216 := by omega
  conv_lhs => rw [hd]
  rw [swab32_bytes _ _ _ _ (by omega) (by omega) (by omega) (by omega)]
  rw [swab32_bytes _ _ _ _ (by omega) (by omega) (by omega) (by omega)]
  omega

/-- C10: `Swab16`, `Swab32` and `Swab64` are involutions: for every 16-bit,
32-bit, and 64-bit word respectively, applying the swap twice gives the
word back. -/
theorem swab_involutions (x y z : Nat) (hx : x < 65536) (hy : y < 4294967296)
    (hz : z < 18446744073709551616) :
    Swab16 (Swab16 x) = x ∧ Swab32 (Swab32 y) = y ∧ Swab64 (Swab64 z) = z :=
  ⟨swab16_involutive hx, swab32_involutive hy, swab64_involutive hz⟩

/-- Witness for C10 at the test vectors used by the repo's own endian tests. -/
theorem swab_involutions_witness :
    Swab16 (Swab16 4660) = 4660 ∧ Swab32 (Swab32 305419896) = 305419896 ∧
      Swab64 (Swab64 1234605616436508552) = 1234605616436508552 :=
  swab_involutions 4660 305419896 1234605616436508552 (by decide) (by decide) (by decide)

/- ## Protocol constants (`protocol.go`) -/

def NETWORK_TYPE_INVALID : Nat := 0
def NETWORK_TYPE_TCP : Nat := 2
def NETWORK_TYPE_O2IB : Nat := 5
def NETWORK_TYPE_LO : Nat := 9
def NETWORK_TYPE_ANY : Nat := 0xFF

def PID_LUSTRE : Nat := 12345
def PID_GLIMMER : Nat := 54321
def PID_USERLAND : Nat := 0x80000000

def PROTO_MAGIC_ACCEPTOR : Nat := 0xacce7100
def PROTO_MAGIC_ACCEPTOR_REV : Nat := 0x0071ceac
def PROTO_MAGIC_GENERIC : Nat := 0x45726963
def PROTO_MAGIC_TCP : Nat := 0xeebc0ded

def KSOCK_MSG_NOOP : Nat := 0xc0
def KSOCK_MSG_LNET : Nat := 0xc1

/- ## Network identifiers (`netid.go`) -/

/-- `NIDHeader`: size, network type and network index (4 bytes on the wire). -/
structure NIDHeader where
  size : Nat
  type : Nat
  networkIndex : Nat
deriving DecidableEq, Repr

/-- `NID64`: compact NID holding one 32-bit address plus the non-wire port. -/
structure NID64 where
  header : NIDHeader
  addr : Nat
  port : Nat
deriving DecidableEq, Repr

/-- `ExtendedNID`: 160-bit NID holding four 32-bit address words plus the
non-wire port. -/
structure ExtendedNID where
  header : NIDHeader
  addr0 : Nat
  addr1 : Nat
  addr2 : Nat
  addr3 : Nat
  port : Nat
deriving DecidableEq, Repr

/-- The `NID` interface: implemented by `NID64` and `ExtendedNID`. -/
inductive NID where
  | n64 (nid : NID64)
  | ext (enid : ExtendedNID)
deriving DecidableEq, Repr

/-- `AnyNID`: the wildcard NID (`Type = 0xFF`). -/
def AnyNID : NID := .n64 ⟨⟨0xFF, 0xFF, 0xFF⟩, 0xFFFFFFFF, DEFAULT_PORT⟩

/-- `binary.Write` of a `NIDHeader`: `Size` byte, `Type` byte, then the
16-bit `NetworkIndex` in the stream's byte order. -/
def NIDHeader.toBytes (o : ByteOrder) (h : NIDHeader) : List Nat :=
  h.size :: h.type :: putUint o 2 h.networkIndex

/-- `NID64.ToBytes`: header then the single address word; the port is
deliberately not written. -/
def NID64.ToBytes (o : ByteOrder) (nid : NID64) : List Nat :=
  nid.header.toBytes o ++ putUint o 4 nid.addr

/-- `ExtendedNID.ToBytes`: header then the four address words; the port is
deliberately not written. -/
def ExtendedNID.ToBytes (o : ByteOrder) (enid : ExtendedNID) : List Nat :=
  enid.header.toBytes o ++ putUint o 4 enid.addr0 ++ putUint o 4 enid.addr1 ++
    putUint o 4 enid.addr2 ++ putUint o 4 enid.addr3

/-- Dispatch of the interface method `ToBytes`. -/
def NID.ToBytes (o : ByteOrder) : NID → List Nat
  | .n64 nid => nid.ToBytes o
  | .ext enid => enid.ToBytes o

/-- `NID64.IsAny` from the source. -/
def NID64.IsAny (nid : NID64) : Bool := nid.header.type == NETWORK_TYPE_ANY

/-- `ExtendedNID.IsAny` from the source. -/
def ExtendedNID.IsAny (enid : ExtendedNID) : Bool := enid.header.type == NETWORK_TYPE_ANY

/-- Dispatch of the interface method `IsAny`. -/
def NID.IsAny : NID → Bool
  | .n64 nid => nid.IsAny
  | .ext enid => enid.IsAny

/-- The distinct `fmt.Errorf` sites of `ReadNID`. -/
inductive NIDReadErr where
  | readHeader
  | ipv4PortUnsupported
  | extendedAddrRead
  | ipv6PortUnsupported
  | unsupportedSize (size : Nat)
deriving DecidableEq, Repr

/-- `ReadNID`: read an 8-byte raw header in the stream's byte order, extract
the fields by bitfield arithmetic, and dispatch on the size byte (0 compact,
12 extended with three further address words, 2/14 reserved). -/
def ReadNID (o : ByteOrder) (input : List Nat) : Except NIDReadErr (NID × List Nat) :=
  match readExact 8 input with
  | none => .error .readHeader
  | some (hb, rest) =>
    let rawHeader := getUint o hb
    let addr0 := rawHeader &&& 0xFFFFFFFF
    let size := (rawHeader >>> 56) &&& 0xFF
    let type := (rawHeader >>> 48) &&& 0xFF
    let networkIndex := (rawHeader >>> 32) &&& 0xFFFF
    if type = NETWORK_TYPE_ANY then .ok (AnyNID, rest)
    else if size = 0 then
      .ok (.n64 ⟨⟨size, type, networkIndex⟩, addr0, DEFAULT_PORT⟩, rest)
    else if size = 2 then .error .ipv4PortUnsupported
    else if size = 12 then
      match readExact 12 rest with
      | none => .error .extendedAddrRead
      | some (ab, rest2) =>
        let a1 := getUint o (ab.take 4)
        let a2 := getUint o ((ab.drop 4).take 4)
        let a3 := getUint o (ab.drop 8)
        .ok (.ext ⟨⟨size, type, networkIndex⟩, addr0, a1, a2, a3, DEFAULT_PORT⟩, rest2)
    else if size = 14 then .error .ipv6PortUnsupported
    else .error (.unsupportedSize size)

/-- The NIDs `NIDFromAddr` can build: a compact NID has size byte 0 and an
IPv4 word, an extended NID has size byte 12 and four address words; field
widths match the Go types (`uint8`, `uint16`, `uint32`). -/
def NID.Constructible : NID → Bool
  | .n64 nid =>
    nid.header.size == 0 && nid.header.type < 256 && nid.header.networkIndex < 65536 &&
      nid.addr < 4294967296
  | .ext enid =>
    enid.header.size == 12 && enid.header.type < 256 && enid.header.networkIndex < 65536 &&
      enid.addr0 < 4294967296 && enid.addr1 < 4294967296 && enid.addr2 < 4294967296 &&
      enid.addr3 < 4294967296

/-- Replace the (non-wire) port by the default the decoder always assigns. -/
def NID.withDefaultPort : NID → NID
  | .n64 nid => .n64 ⟨nid.header, nid.addr, DEFAULT_PORT⟩
  | .ext enid => .ext ⟨enid.header, enid.addr0, enid.addr1, enid.addr2, enid.addr3, DEFAULT_PORT⟩

theorem readExact_all {n : Nat} {bs : List Nat} (h : bs.length = n) :
    readExact n bs = some (bs, []) := by
  subst h
  simp [readExact]

theorem take_append_len {n : Nat} {xs ys : List Nat} (h : xs.length = n) :
    (xs ++ ys).take n = xs := by
  subst h
  exact List.take_left xs ys

theorem drop_append_len {n : Nat} {xs ys : List Nat} (h : xs.length = n) :
    (xs ++ ys).drop n = ys := by
  subst h
  exact List.drop_left xs ys

/-- Big-endian value of an encoded NID header followed by one address word:
the raw 64-bit header `ReadNID` reads back. -/
theorem getUint_be_header (s t ni a : Nat) :
    getUint .be ((s :: t :: putUint .be 2 ni) ++ putUint .be 4 a)
      = ((s * 256 + t) * 65536 + ni % 65536) * 4294967296 + a % 4294967296 := by
  rw [getUint_be_append, getUint_putUint, length_putUint]
  have h2 : getUint .be (s :: t :: putUint .be 2 ni) = (s * 256 + t) * 65536 + ni % 65536 := by
    have hx : s :: t :: putUint .be 2 ni = [s, t] ++ putUint .be 2 ni := rfl
    rw [hx, getUint_be_append, getUint_putUint, length_putUint]
    have hst : getUint .be [s, t] = t + 256 * s := by
      simp [getUint, fromLE]
    rw [hst]
    ring_nf
  rw [h2]
  ring_nf

theorem extract_size {s t ni a : Nat} (ht : t < 256) (hni : ni < 65536)
    (ha : a < 4294967296) :
    ((((s * 256 + t) * 65536 + ni % 65536) * 4294967296 + a % 4294967296) >>> 56) &&& 255
      = s % 256 := by
  rw [Nat.shiftRight_eq_div_pow, and_byte0]
  norm_num
  omega

theorem extract_type {s t ni a : Nat} (ht : t < 256) (hni : ni < 65536)
    (ha : a < 4294967296) :
    ((((s * 256 + t) * 65536 + ni % 65536) * 4294967296 + a % 4294967296) >>> 48) &&& 255
      = t := by
  rw [Nat.shiftRight_eq_div_pow, and_byte0]
  norm_num
  omega

theorem extract_index {s t ni a : Nat} (ht : t < 256) (hni : ni < 65536)
    (ha : a < 4294967296) :
    ((((s * 256 + t) * 65536 + ni % 65536) * 4294967296 + a % 4294967296) >>> 32) &&& 65535
      = ni := by
  rw [Nat.shiftRight_eq_div_pow, and_mask16]
  norm_num
  omega

theorem extract_addr {s t ni a : Nat} (ht : t < 256) (hni : ni < 65536)
    (ha : a < 4294967296) :
    (((s * 256 + t) * 65536 + ni % 65536) * 4294967296 + a % 4294967296) &&& 4294967295
      = a := by
  rw [and_mask32]
  omega

/-- C1 (amended): in big-endian byte order, decoding the bytes produced by
encoding any constructible non-wildcard NID yields the NID back, ignoring
the non-wire port field.  (In little-endian order the round-trip fails; see
the counterexample.) -/
theorem nid_wire_roundtrip_be (n : NID) (hc : n.Constructible = true)
    (ha : n.IsAny = false) :
    ReadNID .be (n.ToBytes .be) = .ok (n.withDefaultPort, []) := by
  cases n with
  | n64 nid =>
    obtain ⟨⟨s, t, ni⟩, a, p⟩ := nid
    simp only [NID.Constructible, Bool.and_eq_true, decide_eq_true_eq, beq_iff_eq] at hc
    obtain ⟨⟨⟨hs, ht⟩, hni⟩, haddr⟩ := hc
    simp only [NID.IsAny, NID64.IsAny, NETWORK_TYPE_ANY, beq_eq_false_iff_ne, ne_eq] at ha
    simp only [NID.ToBytes, NID64.ToBytes, NIDHeader.toBytes]
    unfold ReadNID
    rw [readExact_all (by simp [length_putUint])]
    simp only
    rw [getUint_be_header, extract_size ht hni haddr, extract_type ht hni haddr,
      extract_index ht hni haddr, extract_addr ht hni haddr]
    rw [if_neg (by simpa [NETWORK_TYPE_ANY] using ha)]
    rw [if_pos (by omega)]
    simp only [NID.withDefaultPort, Except.ok.injEq, Prod.mk.injEq, NID.n64.injEq,
      NID64.mk.injEq, NIDHeader.mk.injEq, and_true, true_and]
    omega
  | ext enid =>
    obtain ⟨⟨s, t, ni⟩, a0, a1, a2, a3, p⟩ := enid
    simp only [NID.Constructible, Bool.and_eq_true, decide_eq_true_eq, beq_iff_eq] at hc
    obtain ⟨⟨⟨⟨⟨⟨hs, ht⟩, hni⟩, ha0⟩, ha1⟩, ha2⟩, ha3⟩ := hc
    simp only [NID.IsAny, ExtendedNID.IsAny, NETWORK_TYPE_ANY, beq_eq_false_iff_ne, ne_eq] at ha
    simp only [NID.ToBytes, ExtendedNID.ToBytes, NIDHeader.toBytes]
    have hsplit : ((((s :: t :: putUint .be 2 ni) ++ putUint .be 4 a0) ++ putUint .be 4 a1) ++
          putUint .be 4 a2) ++ putUint .be 4 a3
        = ((s :: t :: putUint .be 2 ni) ++ putUint .be 4 a0) ++
          (putUint .be 4 a1 ++ (putUint .be 4 a2 ++ putUint .be 4 a3)) := by
      simp [List.append_assoc]
    rw [hsplit]
    unfold ReadNID
    rw [readExact_append (by simp [length_putUint])]
    simp only
    rw [getUint_be_header, extract_size ht hni ha0, extract_type ht hni ha0,
      extract_index ht hni ha0, extract_addr ht hni ha0]
    rw [if_neg (by simpa [NETWORK_TYPE_ANY] using ha)]
    rw [if_neg (by omega), if_neg (by omega), if_pos (by omega)]
    rw [readExact_all (by simp [length_putUint])]
    simp only
    rw [take_append_len (length_putUint ..)]
    rw [drop_append_len (length_putUint ..)]
    rw [take_append_len (length_putUint ..)]
    have hdrop8 : (putUint .be 4 a1 ++ (putUint .be 4 a2 ++ putUint .be 4 a3)).drop 8
        = putUint .be 4 a3 := by
      rw [show (putUint .be 4 a1 ++ (putUint .be 4 a2 ++ putUint .be 4 a3))
          = (putUint .be 4 a1 ++ putUint .be 4 a2) ++ putUint .be 4 a3 by
        simp [List.append_assoc]]
      exact drop_append_len (by simp [length_putUint])
    rw [hdrop8]
    rw [getUint_putUint, getUint_putUint, getUint_putUint]
    simp only [NID.withDefaultPort, Except.ok.injEq, Prod.mk.injEq, NID.ext.injEq,
      ExtendedNID.mk.injEq, NIDHeader.mk.injEq, and_true, true_and]
    norm_num
    omega

/-- Witness for C1 at a concrete compact NID (192.168.1.5 at tcp0). -/
theorem nid_wire_roundtrip_be_witness :
    ReadNID .be (NID.ToBytes .be (.n64 ⟨⟨0, 2, 0⟩, 3232235781, 988⟩))
      = .ok (.n64 ⟨⟨0, 2, 0⟩, 3232235781, 988⟩, []) :=
  nid_wire_roundtrip_be (.n64 ⟨⟨0, 2, 0⟩, 3232235781, 988⟩) (by decide) (by decide)

/-- C1 counterexample: the claim quantifies over every byte order, but in
little-endian order the encoder writes the header fields first while the
decoder reads the first eight bytes as a little-endian `uint64` whose TOP
byte it takes as the size, so a constructible non-wildcard compact NID
(here 1.2.3.4 at tcp0, a legal `NIDFromAddr` output) decodes to an
"unsupported NID size" error instead of the original NID. -/
theorem nid_wire_roundtrip_le_counterexample :
    NID.Constructible (.n64 ⟨⟨0, 2, 0⟩, 16909060, 988⟩) = true ∧
      NID.IsAny (.n64 ⟨⟨0, 2, 0⟩, 16909060, 988⟩) = false ∧
      ReadNID .le (NID.ToBytes .le (.n64 ⟨⟨0, 2, 0⟩, 16909060, 988⟩))
        = .error (.unsupportedSize 1) := by
  refine ⟨by decide, by decide, ?_⟩
  rfl

/- ## Address conversion and string form (`netid.go`) -/

/-- A `netip.Addr` value: 4 or 16 address bytes. -/
inductive Addr where
  | v4 (bytes : List Nat)
  | v6 (bytes : List Nat)
deriving DecidableEq, Repr

/-- `NID64.NetAddr`: the address word rendered big-endian into 4 bytes
(`binary.BigEndian.PutUint32` then `netip.AddrFrom4`). -/
def NID64.NetAddr (nid : NID64) : Addr :=
  Addr.v4 (putUint .be 4 nid.addr)

/-- `ExtendedNID.NetAddr` as written in the source: the loop calls
`binary.BigEndian.AppendUint32(bytes, addrValue)` but discards its result,
so `bytes` stays empty, and the final `[16]byte(bytes)` conversion panics
for a slice that is not 16 bytes long.  The Go panic is modelled as `none`;
`some` would carry the converted address. -/
def ExtendedNID.NetAddr (enid : ExtendedNID) : Option Addr :=
  let bytes : List Nat := []
  let bytes := [enid.addr0, enid.addr1, enid.addr2, enid.addr3].foldl
    (fun acc addrValue =>
      let _discarded := acc ++ putUint .be 4 addrValue
      acc) bytes
  if bytes.length = 16 then some (.v6 bytes) else none

/-- `NetworkType.String` from the source. -/
def NetworkType.string (t : Nat) : String :=
  if t = NETWORK_TYPE_TCP then "tcp"
  else if t = NETWORK_TYPE_O2IB then "o2ib"
  else if t = NETWORK_TYPE_LO then "lo"
  else if t = NETWORK_TYPE_ANY then "any"
  else "unknown(" ++ toString t ++ ")"

/-- `netip.Addr.String`: dotted-quad decimal for IPv4.  The IPv6 textual
form (RFC 5952) is not needed: every `Addr` built in this development is
4 bytes, and `ExtendedNID.NetAddr` panics before formatting, so the `v6`
branch is unreachable from the embedded code. -/
def Addr.string : Addr → String
  | .v4 bs => String.intercalate "." (bs.map toString)
  | .v6 bs => String.intercalate ":" (bs.map toString)

/-- `NID64.String`: `fmt.Sprintf("%s@%s%d#%d", ...)`; always prints the
port. -/
def NID64.string (nid : NID64) : String :=
  (nid.NetAddr).string ++ "@" ++ NetworkType.string nid.header.type ++
    toString nid.header.networkIndex ++ "#" ++ toString nid.port

/-- `ExtendedNID.String`: formats `NetAddr()`, which panics (`none`). -/
def ExtendedNID.stringOpt (enid : ExtendedNID) : Option String :=
  (enid.NetAddr).map fun a =>
    a.string ++ "@" ++ NetworkType.string enid.header.type ++
      toString enid.header.networkIndex ++ "#" ++ toString enid.port

/-- `String()` on the `NID` interface: total for `NID64`, panicking
(`none`) for `ExtendedNID`. -/
def NID.stringOpt : NID → Option String
  | .n64 nid => some nid.string
  | .ext enid => enid.stringOpt

/-- C8: for every `ExtendedNID`, `NetAddr` is not total: the result of
`binary.BigEndian.AppendUint32` is discarded, leaving the empty byte slice,
whose conversion to `[16]byte` panics instead of returning the IPv6
address; `String`, which calls `NetAddr`, panics the same way. -/
theorem extendedNID_netAddr_panics (enid : ExtendedNID) :
    enid.NetAddr = none ∧ enid.stringOpt = none :=
  ⟨rfl, rfl⟩

/- ## LNet commands and messages (`command.go`) -/

def LNET_MSG_ACK : Nat := 0
def LNET_MSG_PUT : Nat := 1
def LNET_MSG_GET : Nat := 2
def LNET_MSG_REPLY : Nat := 3
def LNET_MSG_HELLO : Nat := 4

def LNET_PROTO_PING_MATCHBITS : Nat := 0x8000000000000000
def LNET_PING_MAGIC : Nat := 0x70696E67

def PING_NI_STATUS_UP : Nat := 0x15aac0de
def PING_FEATURE_PING : Nat := 1
def PING_FEATURE_NI_STATUS : Nat := 2

/-- `LNetHandleWire`: a (interface cookie, object cookie) pair. -/
structure LNetHandleWire where
  interfaceCookie : Nat
  objectCookie : Nat
deriving DecidableEq, Repr

/-- `LNetGetCommand` from the source. -/
structure LNetGetCommand where
  returnWMD : LNetHandleWire
  matchBits : Nat
  portalIndex : Nat
  sourceOffset : Nat
  sinkLength : Nat
deriving DecidableEq, Repr

/-- The five typed command bodies, the values behind `LNetCommand any`. -/
inductive LNetCommandVal where
  | ack (destWMD : LNetHandleWire) (matchBits : Nat) (messageLength : Nat)
  | put (ackWMD : LNetHandleWire) (matchBits : Nat) (headerData : Nat)
      (portalIndex : Nat) (offset : Nat)
  | get (command : LNetGetCommand)
  | reply (destWMD : LNetHandleWire)
  | hello (incarnation : Nat) (type : Nat)
deriving DecidableEq, Repr

/-- `LNetMessage` with the fields of `LNetHeaderEmbed` inlined; `command`
models the `LNetCommand any` pointer (`none` = nil). -/
structure LNetMessage where
  destNID : NID
  sourceNID : NID
  destPID : Nat
  sourcePID : Nat
  messageType : Nat
  payloadLength : Nat
  command : Option LNetCommandVal
  payload : List Nat
deriving DecidableEq, Repr

def LNetHandleWire.toBytes (o : ByteOrder) (w : LNetHandleWire) : List Nat :=
  putUint o 8 w.interfaceCookie ++ putUint o 8 w.objectCookie

/-- `binary.Write` of the pointed-to command struct, field by field. -/
def LNetCommandVal.toBytes (o : ByteOrder) : LNetCommandVal → List Nat
  | .ack w mb ml => w.toBytes o ++ putUint o 8 mb ++ putUint o 4 ml
  | .put w mb hd pi off =>
    w.toBytes o ++ putUint o 8 mb ++ putUint o 8 hd ++ putUint o 4 pi ++ putUint o 4 off
  | .get g =>
    g.returnWMD.toBytes o ++ putUint o 8 g.matchBits ++ putUint o 4 g.portalIndex ++
      putUint o 4 g.sourceOffset ++ putUint o 4 g.sinkLength
  | .reply w => w.toBytes o
  | .hello inc t => putUint o 8 inc ++ putUint o 4 t

/-- The failure of `LNetMessage.ToBytes` (a nil command). -/
inductive MsgWriteErr where
  | nilCommand
deriving DecidableEq, Repr

/-- `LNetMessage.ToBytes`: both NIDs, then the embedded header with
`PayloadLength` recomputed as `uint32(len(Payload))`, then the typed body,
then the raw payload. -/
def LNetMessage.ToBytes (o : ByteOrder) (m : LNetMessage) : Except MsgWriteErr (List Nat) :=
  match m.command with
  | none => .error .nilCommand
  | some cmd =>
    .ok (m.destNID.ToBytes o ++ m.sourceNID.ToBytes o ++ putUint o 4 m.destPID ++
      putUint o 4 m.sourcePID ++ putUint o 4 m.messageType ++
      putUint o 4 m.payload.length ++ cmd.toBytes o ++ m.payload)

/-- C9: for every `LNetMessage` and byte order, the `payload_length` field
inside the bytes produced by `ToBytes` (it sits right after the two NIDs
and the three preceding 32-bit header fields) encodes the byte length of
the payload slice, regardless of the `payloadLength` value the caller had
previously stored in the message. -/
theorem msgToBytes_recomputes_payload_length (o : ByteOrder) (m : LNetMessage)
    (cmd : LNetCommandVal) (h : m.command = some cmd) :
    (m.ToBytes o).map
        (fun bs => (bs.drop ((m.destNID.ToBytes o).length +
          (m.sourceNID.ToBytes o).length + 12)).take 4)
      = .ok (putUint o 4 m.payload.length) := by
  unfold LNetMessage.ToBytes
  rw [h]
  simp only [Except.map]
  have hsplit : m.destNID.ToBytes o ++ m.sourceNID.ToBytes o ++ putUint o 4 m.destPID ++
        putUint o 4 m.sourcePID ++ putUint o 4 m.messageType ++
        putUint o 4 m.payload.length ++ cmd.toBytes o ++ m.payload
      = (m.destNID.ToBytes o ++ (m.sourceNID.ToBytes o ++ (putUint o 4 m.destPID ++
          (putUint o 4 m.sourcePID ++ putUint o 4 m.messageType)))) ++
        (putUint o 4 m.payload.length ++ (cmd.toBytes o ++ m.payload)) := by
    simp [List.append_assoc]
  rw [hsplit]
  rw [drop_append_len (by simp [length_putUint]; omega)]
  rw [take_append_len (length_putUint ..)]

/-- Witness for C9: a concrete GET message whose stored `payloadLength`
field (7) disagrees with its 2-byte payload; the encoded field says 2. -/
theorem msgToBytes_recomputes_payload_length_witness :
    (LNetMessage.ToBytes .le
        ⟨.n64 ⟨⟨0, 2, 0⟩, 5, 988⟩, .n64 ⟨⟨0, 2, 0⟩, 6, 988⟩, 1, 2, LNET_MSG_GET, 7,
          some (.get ⟨⟨0, 0⟩, 0, 0, 0, 0⟩), [170, 187]⟩).map
        (fun bs => (bs.drop 28).take 4)
      = .ok (putUint .le 4 2) := by
  exact msgToBytes_recomputes_payload_length .le
    ⟨.n64 ⟨⟨0, 2, 0⟩, 5, 988⟩, .n64 ⟨⟨0, 2, 0⟩, 6, 988⟩, 1, 2, LNET_MSG_GET, 7,
      some (.get ⟨⟨0, 0⟩, 0, 0, 0, 0⟩), [170, 187]⟩ (.get ⟨⟨0, 0⟩, 0, 0, 0, 0⟩) rfl

/- ## HELLO protocol upgrade (`protocol.go`) -/

/-- `helloResponseCommonTail`: the fixed tail of a HELLO message. -/
structure CommonTail where
  sourcePID : Nat
  destPID : Nat
  sourceIncarnation : Nat
  destIncarnation : Nat
  connType : Nat
  nips : Nat
deriving DecidableEq, Repr

/-- `binary.Write` of the common tail, field by field. -/
def CommonTail.toBytes (o : ByteOrder) (t : CommonTail) : List Nat :=
  putUint o 4 t.sourcePID ++ putUint o 4 t.destPID ++ putUint o 8 t.sourceIncarnation ++
    putUint o 8 t.destIncarnation ++ putUint o 4 t.connType ++ putUint o 4 t.nips

/-- `binary.Read` of the common tail. -/
def readCommonTail (o : ByteOrder) (input : List Nat) : Option (CommonTail × List Nat) :=
  match readExact 32 input with
  | none => none
  | some (bs, rest) =>
    some (⟨getUint o (bs.take 4), getUint o ((bs.drop 4).take 4),
      getUint o ((bs.drop 8).take 8), getUint o ((bs.drop 16).take 8),
      getUint o ((bs.drop 24).take 4), getUint o (bs.drop 28)⟩, rest)

/-- `RawExtendedNID`: the 20-byte raw wire form of an extended NID. -/
structure RawExtendedNID where
  size : Nat
  type : Nat
  networkIndex : Nat
  addr0 : Nat
  addr1 : Nat
  addr2 : Nat
  addr3 : Nat
deriving DecidableEq, Repr

/-- `binary.Write` of a `RawExtendedNID` (header fields then address words). -/
def RawExtendedNID.toBytes (o : ByteOrder) (r : RawExtendedNID) : List Nat :=
  r.size :: r.type :: putUint o 2 r.networkIndex ++ putUint o 4 r.addr0 ++
    putUint o 4 r.addr1 ++ putUint o 4 r.addr2 ++ putUint o 4 r.addr3

/-- Field widths of a `RawExtendedNID` (the Go struct types enforce these). -/
def RawExtendedNID.wf (r : RawExtendedNID) : Bool :=
  r.size < 256 && r.type < 256 && r.networkIndex < 65536 && r.addr0 < 4294967296 &&
    r.addr1 < 4294967296 && r.addr2 < 4294967296 && r.addr3 < 4294967296

/-- `binary.Read` of a `RawExtendedNID`, field after field. -/
def readRawExtendedNID (o : ByteOrder) (input : List Nat) :
    Option (RawExtendedNID × List Nat) :=
  match readExact 1 input with
  | none => none
  | some (sb, r1) =>
    match readExact 1 r1 with
    | none => none
    | some (tb, r2) =>
      match readExact 2 r2 with
      | none => none
      | some (nib, r3) =>
        match readExact 4 r3 with
        | none => none
        | some (a0b, r4) =>
          match readExact 4 r4 with
          | none => none
          | some (a1b, r5) =>
            match readExact 4 r5 with
            | none => none
            | some (a2b, r6) =>
              match readExact 4 r6 with
              | none => none
              | some (a3b, r7) =>
                some (⟨getUint o sb, getUint o tb, getUint o nib, getUint o a0b,
                  getUint o a1b, getUint o a2b, getUint o a3b⟩, r7)

/-- The distinct failure sites of `ProtocolUpgrade`. -/
inductive PUErr where
  | readMagic
  | unsupportedMagic (m : Nat)
  | readVersion
  | readSrcNID
  | readDstNID
  | readTail
  | nonzeroNIPs (n : Nat)
  | unsupportedVersion (v : Nat)
deriving DecidableEq, Repr

/-- The `handleCommon` closure: read the common tail, reject a non-zero
`NIPs`, then mutate the tail for the reply (dest incarnation := received
source incarnation, source incarnation := fresh random value, dest pid :=
received source pid, conn type 2 rewritten to 3). -/
def handleCommon (o : ByteOrder) (rnd : Nat) (input : List Nat) :
    Except PUErr (CommonTail × List Nat) :=
  match readCommonTail o input with
  | none => .error .readTail
  | some (t, rest) =>
    if t.nips ≠ 0 then .error (.nonzeroNIPs t.nips)
    else
      .ok (⟨t.sourcePID, t.sourcePID, rnd, t.sourceIncarnation,
        if t.connType = 2 then 3 else t.connType, t.nips⟩, rest)

/-- `ProtocolUpgrade`: read the HELLO magic and version, the two raw NIDs
(64-bit for versions 2/3, extended for version 4), run `handleCommon`, and
write the reply (same magic for v2/3, the negotiated TCP magic for v4, same
version, the NIDs swapped, then the mutated tail).  Returns the outcome
(negotiated protocol and unread input on success) paired with the bytes
written to the stream. -/
def ProtocolUpgrade (o : ByteOrder) (rnd : Nat) (input : List Nat) :
    Except PUErr (Nat × List Nat) × List Nat :=
  match readExact 4 input with
  | none => (.error .readMagic, [])
  | some (mb, r1) =>
    let protocolMagic := getUint o mb
    if protocolMagic = PROTO_MAGIC_GENERIC ∨ protocolMagic = PROTO_MAGIC_TCP then
      let protocol := PROTO_MAGIC_TCP
      match readExact 4 r1 with
      | none => (.error .readVersion, [])
      | some (vb, r2) =>
        let protocolVersion := getUint o vb
        if protocolVersion = 2 ∨ protocolVersion = 3 then
          match readExact 8 r2 with
          | none => (.error .readSrcNID, [])
          | some (sb, r3) =>
            let rawSourceNID64 := getUint o sb
            match readExact 8 r3 with
            | none => (.error .readDstNID, [])
            | some (db, r4) =>
              let rawDestNID64 := getUint o db
              match handleCommon o rnd r4 with
              | .error e => (.error e, [])
              | .ok (commonTail, r5) =>
                (.ok (protocol, r5),
                  putUint o 4 protocolMagic ++ putUint o 4 protocolVersion ++
                    putUint o 8 rawDestNID64 ++ putUint o 8 rawSourceNID64 ++
                    commonTail.toBytes o)
        else if protocolVersion = 4 then
          match readRawExtendedNID o r2 with
          | none => (.error .readSrcNID, [])
          | some (rawSourceENid, r3) =>
            match readRawExtendedNID o r3 with
            | none => (.error .readDstNID, [])
            | some (rawDestENid, r4) =>
              match handleCommon o rnd r4 with
              | .error e => (.error e, [])
              | .ok (commonTail, r5) =>
                (.ok (protocol, r5),
                  putUint o 4 protocol ++ putUint o 4 protocolVersion ++
                    rawDestENid.toBytes o ++ rawSourceENid.toBytes o ++
                    commonTail.toBytes o)
        else (.error (.unsupportedVersion protocolVersion), [])
    else (.error (.unsupportedMagic protocolMagic), [])

theorem drop_append_add {xs ys : List Nat} {n : Nat} (h : xs.length = n) (m : Nat) :
    (xs ++ ys).drop (n + m) = ys.drop m := by
  subst h
  induction xs with
  | nil => simp
  | cons x xs ih =>
    have harith : (x :: xs).length + m = (xs.length + m) + 1 := by
      simp
      omega
    rw [harith, List.cons_append, List.drop_succ_cons, ih]

theorem getUint_singleton (o : ByteOrder) (b : Nat) : getUint o [b] = b := by
  cases o <;> simp [getUint, fromLE]

/-- Field widths of a `CommonTail` (the Go struct types enforce these). -/
def CommonTail.wf (t : CommonTail) : Bool :=
  t.sourcePID < 4294967296 && t.destPID < 4294967296 &&
    t.sourceIncarnation < 18446744073709551616 &&
    t.destIncarnation < 18446744073709551616 && t.connType < 4294967296 &&
    t.nips < 4294967296

/-- Reading back a serialized common tail recovers it. -/
theorem readCommonTail_toBytes (o : ByteOrder) (t : CommonTail) (rest : List Nat)
    (hw : t.wf = true) :
    readCommonTail o (t.toBytes o ++ rest) = some (t, rest) := by
  obtain ⟨a, b, c, d, e, f⟩ := t
  simp only [CommonTail.wf, Bool.and_eq_true, decide_eq_true_eq] at hw
  obtain ⟨⟨⟨⟨⟨ha, hb⟩, hc⟩, hd⟩, he⟩, hf⟩ := hw
  have hshape : CommonTail.toBytes o ⟨a, b, c, d, e, f⟩ ++ rest
      = putUint o 4 a ++ (putUint o 4 b ++ (putUint o 8 c ++ (putUint o 8 d ++
        (putUint o 4 e ++ (putUint o 4 f ++ rest))))) := by
    simp [CommonTail.toBytes, List.append_assoc]
  rw [hshape]
  unfold readCommonTail
  have hsplit : putUint o 4 a ++ (putUint o 4 b ++ (putUint o 8 c ++ (putUint o 8 d ++
        (putUint o 4 e ++ (putUint o 4 f ++ rest)))))
      = (putUint o 4 a ++ (putUint o 4 b ++ (putUint o 8 c ++ (putUint o 8 d ++
        (putUint o 4 e ++ putUint o 4 f))))) ++ rest := by
    simp [List.append_assoc]
  rw [hsplit, readExact_append (by simp [length_putUint])]
  simp only
  rw [take_append_len (length_putUint ..)]
  rw [drop_append_len (length_putUint ..), take_append_len (length_putUint ..)]
  rw [show (8 : Nat) = 4 + 4 from rfl, drop_append_add (length_putUint ..),
    drop_append_len (length_putUint ..), take_append_len (length_putUint ..)]
  rw [show (16 : Nat) = 4 + 12 from rfl, drop_append_add (length_putUint ..),
    show (12 : Nat) = 4 + 8 from rfl, drop_append_add (length_putUint ..),
    drop_append_len (length_putUint ..), take_append_len (length_putUint ..)]
  rw [show (24 : Nat) = 4 + 20 from rfl, drop_append_add (length_putUint ..),
    show (20 : Nat) = 4 + 16 from rfl, drop_append_add (length_putUint ..),
    show (16 : Nat) = 8 + 8 from rfl, drop_append_add (length_putUint ..),
    drop_append_len (length_putUint ..), take_append_len (length_putUint ..)]
  rw [show (28 : Nat) = 4 + 24 from rfl, drop_append_add (length_putUint ..),
    show (24 : Nat) = 4 + 20 from rfl, drop_append_add (length_putUint ..),
    show (20 : Nat) = 8 + 12 from rfl, drop_append_add (length_putUint ..),
    show (12 : Nat) = 8 + 4 from rfl, drop_append_add (length_putUint ..),
    drop_append_len (length_putUint ..)]
  rw [getUint_putUint, getUint_putUint, getUint_putUint, getUint_putUint, getUint_putUint,
    getUint_putUint]
  norm_num
  refine ⟨?_, ?_, ?_, ?_, ?_, ?_⟩ <;> omega

/-- Reading back a serialized raw extended NID recovers it. -/
theorem readRawExtendedNID_toBytes (o : ByteOrder) (r : RawExtendedNID) (rest : List Nat)
    (hw : r.wf = true) :
    readRawExtendedNID o (r.toBytes o ++ rest) = some (r, rest) := by
  obtain ⟨s, t, ni, a0, a1, a2, a3⟩ := r
  simp only [RawExtendedNID.wf, Bool.and_eq_true, decide_eq_true_eq] at hw
  obtain ⟨⟨⟨⟨⟨⟨hs, ht⟩, hni⟩, ha0⟩, ha1⟩, ha2⟩, ha3⟩ := hw
  have hshape : RawExtendedNID.toBytes o ⟨s, t, ni, a0, a1, a2, a3⟩ ++ rest
      = [s] ++ ([t] ++ (putUint o 2 ni ++ (putUint o 4 a0 ++ (putUint o 4 a1 ++
        (putUint o 4 a2 ++ (putUint o 4 a3 ++ rest)))))) := by
    simp [RawExtendedNID.toBytes, List.append_assoc]
  rw [hshape]
  unfold readRawExtendedNID
  rw [readExact_append (by simp)]
  simp only
  rw [readExact_append (by simp)]
  simp only
  rw [readExact_append (length_putUint ..)]
  simp only
  rw [readExact_append (length_putUint ..)]
  simp only
  rw [readExact_append (length_putUint ..)]
  simp only
  rw [readExact_append (length_putUint ..)]
  simp only
  rw [readExact_append (length_putUint ..)]
  simp only
  rw [getUint_singleton, getUint_singleton, getUint_putUint, getUint_putUint, getUint_putUint,
    getUint_putUint, getUint_putUint]
  norm_num
  refine ⟨?_, ?_, ?_, ?_, ?_⟩ <;> omega

/-- `handleCommon` on a serialized tail: rejects non-zero `NIPs`, otherwise
returns the mutated reply tail. -/
theorem handleCommon_toBytes (o : ByteOrder) (rnd : Nat) (t : CommonTail)
    (rest : List Nat) (hw : t.wf = true) :
    handleCommon o rnd (t.toBytes o ++ rest)
      = if t.nips ≠ 0 then .error (.nonzeroNIPs t.nips)
        else .ok (⟨t.sourcePID, t.sourcePID, rnd, t.sourceIncarnation,
          if t.connType = 2 then 3 else t.connType, t.nips⟩, rest) := by
  unfold handleCommon
  rw [readCommonTail_toBytes o t rest hw]

/-- The raw NID of a HELLO exchange: a packed 64-bit `RawNID64` for
protocol versions 2/3, a `RawExtendedNID` for version 4. -/
inductive RawHelloNID where
  | n64 (value : Nat)
  | ext (r : RawExtendedNID)
deriving DecidableEq, Repr

/-- Wire bytes of a raw HELLO NID. -/
def RawHelloNID.toBytes (o : ByteOrder) : RawHelloNID → List Nat
  | .n64 v => putUint o 8 v
  | .ext r => r.toBytes o

/-- Field widths of a raw HELLO NID. -/
def RawHelloNID.wf : RawHelloNID → Bool
  | .n64 v => v < 18446744073709551616
  | .ext r => r.wf

/-- Which wire form a raw HELLO NID uses. -/
def RawHelloNID.isExt : RawHelloNID → Bool
  | .n64 _ => false
  | .ext _ => true

/-- Symbolic execution of the version-2/3 branch of `ProtocolUpgrade`, up
to the outcome of `handleCommon`. -/
theorem protocolUpgrade_v23 (o : ByteOrder) (rnd magic version s d : Nat)
    (rest : List Nat)
    (hm : magic = PROTO_MAGIC_GENERIC ∨ magic = PROTO_MAGIC_TCP)
    (hv : version = 2 ∨ version = 3)
    (hs : s < 18446744073709551616) (hd : d < 18446744073709551616) :
    ProtocolUpgrade o rnd (putUint o 4 magic ++ (putUint o 4 version ++
        (putUint o 8 s ++ (putUint o 8 d ++ rest))))
      = match handleCommon o rnd rest with
        | .error e => (.error e, [])
        | .ok (commonTail, r5) =>
          (.ok (PROTO_MAGIC_TCP, r5),
            putUint o 4 magic ++ putUint o 4 version ++ putUint o 8 d ++
              putUint o 8 s ++ commonTail.toBytes o) := by
  unfold ProtocolUpgrade
  rw [readExact_append (length_putUint ..)]
  simp only
  rw [getUint_putUint]
  have hmlt : magic % 2 ^ (8 * 4) = magic := by
    rcases hm with h | h <;> subst h <;> decide
  rw [hmlt]
  rw [if_pos hm]
  rw [readExact_append (length_putUint ..)]
  simp only
  rw [getUint_putUint]
  have hvlt : version % 2 ^ (8 * 4) = version := by
    rcases hv with h | h <;> subst h <;> decide
  rw [hvlt]
  rw [if_pos hv]
  rw [readExact_append (length_putUint ..)]
  simp only
  rw [getUint_putUint, Nat.mod_eq_of_lt (by norm_num; omega)]
  rw [readExact_append (length_putUint ..)]
  simp only
  rw [getUint_putUint, Nat.mod_eq_of_lt (by norm_num; omega)]

/-- Symbolic execution of the version-4 branch of `ProtocolUpgrade`, up to
the outcome of `handleCommon`; the reply magic is the negotiated TCP magic,
not the received one. -/
theorem protocolUpgrade_v4 (o : ByteOrder) (rnd magic : Nat)
    (rs rd : RawExtendedNID) (rest : List Nat)
    (hm : magic = PROTO_MAGIC_GENERIC ∨ magic = PROTO_MAGIC_TCP)
    (hsw : rs.wf = true) (hdw : rd.wf = true) :
    ProtocolUpgrade o rnd (putUint o 4 magic ++ (putUint o 4 4 ++
        (rs.toBytes o ++ (rd.toBytes o ++ rest))))
      = match handleCommon o rnd rest with
        | .error e => (.error e, [])
        | .ok (commonTail, r5) =>
          (.ok (PROTO_MAGIC_TCP, r5),
            putUint o 4 PROTO_MAGIC_TCP ++ putUint o 4 4 ++ rd.toBytes o ++
              rs.toBytes o ++ commonTail.toBytes o) := by
  unfold ProtocolUpgrade
  rw [readExact_append (length_putUint ..)]
  simp only
  rw [getUint_putUint]
  have hmlt : magic % 2 ^ (8 * 4) = magic := by
    rcases hm with h | h <;> subst h <;> decide
  rw [hmlt]
  rw [if_pos hm]
  rw [readExact_append (length_putUint ..)]
  simp only
  rw [getUint_putUint]
  norm_num
  rw [readRawExtendedNID_toBytes o rs _ hsw]
  simp only
  rw [readRawExtendedNID_toBytes o rd _ hdw]

/-- C2 (amended): for every HELLO exchange the handshake accepts (protocol
version 2, 3, or 4 with `n_ips = 0`), the reply carries the received
version, the two NIDs swapped byte-for-byte, `dest_incarnation` equal to
the received `source_incarnation`, the freshly drawn random value as
`source_incarnation` (stored as drawn, with no non-zero check), `dest_pid`
equal to the received `source_pid`, and `conn_type` rewritten from 2 to 3
(other values unchanged).  The reply magic is the received magic for
versions 2/3 but the negotiated TCP magic for version 4 (it differs from
the received magic when GENERIC was received). -/
theorem protocolUpgrade_reply (o : ByteOrder) (rnd magic version : Nat)
    (src dst : RawHelloNID) (tail : CommonTail) (extra : List Nat)
    (hm : magic = PROTO_MAGIC_GENERIC ∨ magic = PROTO_MAGIC_TCP)
    (hv : version = 2 ∨ version = 3 ∨ version = 4)
    (hsrc : src.isExt = (version == 4)) (hdst : dst.isExt = (version == 4))
    (hsw : src.wf = true) (hdw : dst.wf = true)
    (htw : tail.wf = true) (hnips : tail.nips = 0) :
    ProtocolUpgrade o rnd (putUint o 4 magic ++ putUint o 4 version ++
        src.toBytes o ++ dst.toBytes o ++ tail.toBytes o ++ extra)
      = (.ok (PROTO_MAGIC_TCP, extra),
         putUint o 4 (if version = 4 then PROTO_MAGIC_TCP else magic) ++
           putUint o 4 version ++ dst.toBytes o ++ src.toBytes o ++
           (CommonTail.mk tail.sourcePID tail.sourcePID rnd tail.sourceIncarnation
             (if tail.connType = 2 then 3 else tail.connType) 0).toBytes o) := by
  have hshape : putUint o 4 magic ++ putUint o 4 version ++ src.toBytes o ++
        dst.toBytes o ++ tail.toBytes o ++ extra
      = putUint o 4 magic ++ (putUint o 4 version ++ (src.toBytes o ++
        (dst.toBytes o ++ (tail.toBytes o ++ extra)))) := by
    simp [List.append_assoc]
  rw [hshape]
  rcases hv with hv | hv | hv
  · -- version 2, compact raw NIDs
    cases src with
    | ext r => simp [RawHelloNID.isExt, hv] at hsrc
    | n64 s =>
      cases dst with
      | ext r => simp [RawHelloNID.isExt, hv] at hdst
      | n64 d =>
        subst hv
        simp only [RawHelloNID.toBytes]
        rw [protocolUpgrade_v23 o rnd magic 2 s d _ hm (Or.inl rfl)
          (by simpa [RawHelloNID.wf] using hsw) (by simpa [RawHelloNID.wf] using hdw)]
        rw [handleCommon_toBytes o rnd tail extra htw]
        rw [if_neg (by omega)]
        simp only
        rw [hnips]
        norm_num [List.append_assoc]
  · -- version 3, compact raw NIDs
    cases src with
    | ext r => simp [RawHelloNID.isExt, hv] at hsrc
    | n64 s =>
      cases dst with
      | ext r => simp [RawHelloNID.isExt, hv] at hdst
      | n64 d =>
        subst hv
        simp only [RawHelloNID.toBytes]
        rw [protocolUpgrade_v23 o rnd magic 3 s d _ hm (Or.inr rfl)
          (by simpa [RawHelloNID.wf] using hsw) (by simpa [RawHelloNID.wf] using hdw)]
        rw [handleCommon_toBytes o rnd tail extra htw]
        rw [if_neg (by omega)]
        simp only
        rw [hnips]
        norm_num [List.append_assoc]
  · -- version 4, raw extended NIDs; the reply magic is the TCP magic
    cases src with
    | n64 s => simp [RawHelloNID.isExt, hv] at hsrc
    | ext rs =>
      cases dst with
      | n64 d => simp [RawHelloNID.isExt, hv] at hdst
      | ext rd =>
        subst hv
        simp only [RawHelloNID.toBytes]
        rw [protocolUpgrade_v4 o rnd magic rs rd _ hm
          (by simpa [RawHelloNID.wf] using hsw) (by simpa [RawHelloNID.wf] using hdw)]
        rw [handleCommon_toBytes o rnd tail extra htw]
        rw [if_neg (by omega)]
        simp only
        rw [hnips]
        norm_num [List.append_assoc]

/-- Witness for C2: the spec's HELLO-v3 scenario (TCP magic, version 3,
`src_pid = 12345`, `src_incarn = 0xDEAD`, `conn_type = 2`, `n_ips = 0`)
with 0xBEEF as the drawn random value. -/
theorem protocolUpgrade_reply_witness :
    ProtocolUpgrade .le 48879 (putUint .le 4 PROTO_MAGIC_TCP ++ putUint .le 4 3 ++
        RawHelloNID.toBytes .le (.n64 17) ++ RawHelloNID.toBytes .le (.n64 34) ++
        CommonTail.toBytes .le ⟨12345, 12345, 57005, 0, 2, 0⟩ ++ [])
      = (.ok (PROTO_MAGIC_TCP, []),
         putUint .le 4 PROTO_MAGIC_TCP ++ putUint .le 4 3 ++
           RawHelloNID.toBytes .le (.n64 34) ++ RawHelloNID.toBytes .le (.n64 17) ++
           CommonTail.toBytes .le ⟨12345, 12345, 48879, 57005, 3, 0⟩) := by
  exact protocolUpgrade_reply .le 48879 PROTO_MAGIC_TCP 3 (.n64 17) (.n64 34)
    ⟨12345, 12345, 57005, 0, 2, 0⟩ [] (Or.inr rfl) (Or.inr (Or.inl rfl)) (by decide)
    (by decide) (by decide) (by decide) (by decide) rfl

/-- C2 counterexample: on an accepted version-4 exchange that arrived under
the GENERIC magic, the reply's magic field holds the TCP magic, not the
received magic, refuting "the reply carries the same protocol magic that
was received". -/
theorem protocolUpgrade_reply_magic_counterexample :
    (ProtocolUpgrade .le 7 (putUint .le 4 PROTO_MAGIC_GENERIC ++ putUint .le 4 4 ++
        RawExtendedNID.toBytes .le ⟨12, 2, 0, 1, 2, 3, 4⟩ ++
        RawExtendedNID.toBytes .le ⟨12, 2, 0, 5, 6, 7, 8⟩ ++
        CommonTail.toBytes .le ⟨12345, 0, 57005, 0, 2, 0⟩ ++ [])).1
      = .ok (PROTO_MAGIC_TCP, []) ∧
    (ProtocolUpgrade .le 7 (putUint .le 4 PROTO_MAGIC_GENERIC ++ putUint .le 4 4 ++
        RawExtendedNID.toBytes .le ⟨12, 2, 0, 1, 2, 3, 4⟩ ++
        RawExtendedNID.toBytes .le ⟨12, 2, 0, 5, 6, 7, 8⟩ ++
        CommonTail.toBytes .le ⟨12345, 0, 57005, 0, 2, 0⟩ ++ [])).2.take 4
      = putUint .le 4 PROTO_MAGIC_TCP ∧
    putUint .le 4 PROTO_MAGIC_TCP ≠ putUint .le 4 PROTO_MAGIC_GENERIC :=
  ⟨rfl, rfl, by decide⟩

/-- C4: if the HELLO common tail carries `n_ips ≠ 0`, `ProtocolUpgrade`
fails with the "non-zero NIPs" error and writes no reply bytes to the
stream. -/
theorem protocolUpgrade_nonzero_nips (o : ByteOrder) (rnd magic version : Nat)
    (src dst : RawHelloNID) (tail : CommonTail) (extra : List Nat)
    (hm : magic = PROTO_MAGIC_GENERIC ∨ magic = PROTO_MAGIC_TCP)
    (hv : version = 2 ∨ version = 3 ∨ version = 4)
    (hsrc : src.isExt = (version == 4)) (hdst : dst.isExt = (version == 4))
    (hsw : src.wf = true) (hdw : dst.wf = true)
    (htw : tail.wf = true) (hnips : tail.nips ≠ 0) :
    ProtocolUpgrade o rnd (putUint o 4 magic ++ putUint o 4 version ++
        src.toBytes o ++ dst.toBytes o ++ tail.toBytes o ++ extra)
      = (.error (.nonzeroNIPs tail.nips), []) := by
  have hshape : putUint o 4 magic ++ putUint o 4 version ++ src.toBytes o ++
        dst.toBytes o ++ tail.toBytes o ++ extra
      = putUint o 4 magic ++ (putUint o 4 version ++ (src.toBytes o ++
        (dst.toBytes o ++ (tail.toBytes o ++ extra)))) := by
    simp [List.append_assoc]
  rw [hshape]
  rcases hv with hv | hv | hv
  · cases src with
    | ext r => simp [RawHelloNID.isExt, hv] at hsrc
    | n64 s =>
      cases dst with
      | ext r => simp [RawHelloNID.isExt, hv] at hdst
      | n64 d =>
        subst hv
        simp only [RawHelloNID.toBytes]
        rw [protocolUpgrade_v23 o rnd magic 2 s d _ hm (Or.inl rfl)
          (by simpa [RawHelloNID.wf] using hsw) (by simpa [RawHelloNID.wf] using hdw)]
        rw [handleCommon_toBytes o rnd tail extra htw]
        rw [if_pos hnips]
  · cases src with
    | ext r => simp [RawHelloNID.isExt, hv] at hsrc
    | n64 s =>
      cases dst with
      | ext r => simp [RawHelloNID.isExt, hv] at hdst
      | n64 d =>
        subst hv
        simp only [RawHelloNID.toBytes]
        rw [protocolUpgrade_v23 o rnd magic 3 s d _ hm (Or.inr rfl)
          (by simpa [RawHelloNID.wf] using hsw) (by simpa [RawHelloNID.wf] using hdw)]
        rw [handleCommon_toBytes o rnd tail extra htw]
        rw [if_pos hnips]
  · cases src with
    | n64 s => simp [RawHelloNID.isExt, hv] at hsrc
    | ext rs =>
      cases dst with
      | n64 d => simp [RawHelloNID.isExt, hv] at hdst
      | ext rd =>
        subst hv
        simp only [RawHelloNID.toBytes]
        rw [protocolUpgrade_v4 o rnd magic rs rd _ hm
          (by simpa [RawHelloNID.wf] using hsw) (by simpa [RawHelloNID.wf] using hdw)]
        rw [handleCommon_toBytes o rnd tail extra htw]
        rw [if_pos hnips]

/-- Witness for C4: the spec's reject scenario, HELLO v3 with `n_ips = 1`:
the connection errors out and the written reply is empty. -/
theorem protocolUpgrade_nonzero_nips_witness :
    ProtocolUpgrade .le 48879 (putUint .le 4 PROTO_MAGIC_TCP ++ putUint .le 4 3 ++
        RawHelloNID.toBytes .le (.n64 17) ++ RawHelloNID.toBytes .le (.n64 34) ++
        CommonTail.toBytes .le ⟨12345, 12345, 57005, 0, 2, 1⟩ ++ [])
      = (.error (.nonzeroNIPs 1), []) := by
  exact protocolUpgrade_nonzero_nips .le 48879 PROTO_MAGIC_TCP 3 (.n64 17) (.n64 34)
    ⟨12345, 12345, 57005, 0, 2, 1⟩ [] (Or.inr rfl) (Or.inr (Or.inl rfl)) (by decide)
    (by decide) (by decide) (by decide) (by decide) (by decide)

/- ## Frame decoding (`command.go` ReadCommand) -/

/-- The distinct failure sites of `ReadCommand`. -/
inductive CmdErr where
  | nidRead (e : NIDReadErr)
  | tailRead
  | unsupportedType (t : Nat)
  | bodyRead
  | payloadRead
deriving DecidableEq, Repr

/-- `binary.Read` of the typed command body selected by the message type
(the `switch` assigning `message.LNetCommand` followed by the read). -/
def readCommandBody (o : ByteOrder) (t : Nat) (input : List Nat) :
    Except CmdErr (LNetCommandVal × List Nat) :=
  if t = LNET_MSG_ACK then
    match readExact 28 input with
    | none => .error .bodyRead
    | some (bs, rest) =>
      .ok (.ack ⟨getUint o (bs.take 8), getUint o ((bs.drop 8).take 8)⟩
        (getUint o ((bs.drop 16).take 8)) (getUint o (bs.drop 24)), rest)
  else if t = LNET_MSG_PUT then
    match readExact 40 input with
    | none => .error .bodyRead
    | some (bs, rest) =>
      .ok (.put ⟨getUint o (bs.take 8), getUint o ((bs.drop 8).take 8)⟩
        (getUint o ((bs.drop 16).take 8)) (getUint o ((bs.drop 24).take 8))
        (getUint o ((bs.drop 32).take 4)) (getUint o (bs.drop 36)), rest)
  else if t = LNET_MSG_GET then
    match readExact 36 input with
    | none => .error .bodyRead
    | some (bs, rest) =>
      .ok (.get ⟨⟨getUint o (bs.take 8), getUint o ((bs.drop 8).take 8)⟩,
        getUint o ((bs.drop 16).take 8), getUint o ((bs.drop 24).take 4),
        getUint o ((bs.drop 28).take 4), getUint o (bs.drop 32)⟩, rest)
  else if t = LNET_MSG_REPLY then
    match readExact 16 input with
    | none => .error .bodyRead
    | some (bs, rest) => .ok (.reply ⟨getUint o (bs.take 8), getUint o (bs.drop 8)⟩, rest)
  else if t = LNET_MSG_HELLO then
    match readExact 12 input with
    | none => .error .bodyRead
    | some (bs, rest) => .ok (.hello (getUint o (bs.take 8)) (getUint o (bs.drop 8)), rest)
  else .error (.unsupportedType t)

/-- `ReadCommand` over a flat stream: two NIDs, the 16-byte embedded
header, the typed body, then — if `payload_length > 0` — a single
`conn.Read` into a zero-filled buffer of that size (on a flat stream the
read returns everything available, up to the buffer size). -/
def ReadCommand (o : ByteOrder) (input : List Nat) :
    Except CmdErr (LNetMessage × List Nat) :=
  match ReadNID o input with
  | .error e => .error (.nidRead e)
  | .ok (destNID, r1) =>
    match ReadNID o r1 with
    | .error e => .error (.nidRead e)
    | .ok (sourceNID, r2) =>
      match readExact 16 r2 with
      | none => .error .tailRead
      | some (tb, r3) =>
        let destPID := getUint o (tb.take 4)
        let sourcePID := getUint o ((tb.drop 4).take 4)
        let messageType := getUint o ((tb.drop 8).take 4)
        let payloadLength := getUint o (tb.drop 12)
        match readCommandBody o messageType r3 with
        | .error e => .error e
        | .ok (cmd, r4) =>
          if payloadLength > 0 then
            if r4.isEmpty then .error .payloadRead
            else
              .ok (⟨destNID, sourceNID, destPID, sourcePID, messageType, payloadLength,
                some cmd,
                r4.take payloadLength ++
                  List.replicate (payloadLength - (r4.take payloadLength).length) 0⟩,
                r4.drop payloadLength)
          else
            .ok (⟨destNID, sourceNID, destPID, sourcePID, messageType, payloadLength,
              some cmd, []⟩, r4)

/- ## Connection handling (`client.go`, `protocol.go` Negotiate) -/

/-- The distinct failure sites of `Negotiate`. -/
inductive NegErr where
  | readAcceptorMagic
  | genericUnsupported
  | invalidAcceptorMagic (m : Nat)
  | readAcceptorVersion
  | readSourceNID (e : NIDReadErr)
  | unsupportedAcceptorVersion (v : Nat)
  | upgrade (e : PUErr)
deriving DecidableEq, Repr

/-- The part of `Negotiate` after the acceptor magic fixed the byte
order: acceptor version, source NID (versions 1 and 2 differ only in a
compatibility warning), then `ProtocolUpgrade`. -/
def negotiateRest (o : ByteOrder) (rnd : Nat) (input : List Nat) :
    Except NegErr (ByteOrder × Nat × NID × List Nat) × List Nat :=
  match readExact 4 input with
  | none => (.error .readAcceptorVersion, [])
  | some (vb, r2) =>
    let acceptorVersion := getUint o vb
    if acceptorVersion = 1 ∨ acceptorVersion = 2 then
      match ReadNID o r2 with
      | .error e => (.error (.readSourceNID e), [])
      | .ok (sourceNID, r3) =>
        match ProtocolUpgrade o rnd r3 with
        | (.error e, w) => (.error (.upgrade e), w)
        | (.ok (proto, r4), w) => (.ok (o, proto, sourceNID, r4), w)
    else (.error (.unsupportedAcceptorVersion acceptorVersion), [])

/-- `Negotiate`: read the acceptor magic (REV flips the connection byte
order, GENERIC fails, ACCEPTOR proceeds), then the rest of the handshake.
Returns the outcome (byte order, protocol, peer NID, unread input) paired
with the bytes written. -/
def Negotiate (o : ByteOrder) (rnd : Nat) (input : List Nat) :
    Except NegErr (ByteOrder × Nat × NID × List Nat) × List Nat :=
  match readExact 4 input with
  | none => (.error .readAcceptorMagic, [])
  | some (mb, r1) =>
    let acceptorMagic := getUint o mb
    if acceptorMagic = PROTO_MAGIC_ACCEPTOR_REV then
      negotiateRest (GetOppositeByteOrder o) rnd r1
    else if acceptorMagic = PROTO_MAGIC_GENERIC then (.error .genericUnsupported, [])
    else if acceptorMagic = PROTO_MAGIC_ACCEPTOR then negotiateRest o rnd r1
    else (.error (.invalidAcceptorMagic acceptorMagic), [])

/-- A registered command handler: the dispatcher only observes success
(with whatever bytes the handler wrote) or failure. -/
def CommandHandler : Type := LNetMessage → Except Unit (List Nat)

/-- The `Commands` registry: a partial map from command code to handler. -/
def CommandRegistry : Type := Nat → Option CommandHandler

/-- The distinct exits of the `handleCommands` loop. -/
inductive HCErr where
  | readHeader
  | readCommand (e : CmdErr)
  | handler
  | unsupportedKSockType (t : Nat)
deriving DecidableEq, Repr

/-- `handleCommands`: read a 24-byte KSOCK header per iteration; NOOP
frames loop, LNET frames are decoded and dispatched (unregistered types
are skipped), a handler failure or any read failure exits the loop with
that error.  `fuel` bounds the iteration count of the Go `for` loop. -/
def handleCommands (reg : CommandRegistry) (o : ByteOrder) :
    Nat → List Nat → Except HCErr Unit × List Nat
  | 0, _ => (.ok (), [])
  | fuel + 1, input =>
    match readExact 24 input with
    | none => (.error .readHeader, [])
    | some (hb, r1) =>
      let msgType := getUint o (hb.take 4)
      if msgType = KSOCK_MSG_NOOP then handleCommands reg o fuel r1
      else if msgType = KSOCK_MSG_LNET then
        match ReadCommand o r1 with
        | .error e => (.error (.readCommand e), [])
        | .ok (message, r2) =>
          match reg message.messageType with
          | none => handleCommands reg o fuel r2
          | some handler =>
            match handler message with
            | .error _ => (.error .handler, [])
            | .ok w =>
              match handleCommands reg o fuel r2 with
              | (res, w2) => (res, w ++ w2)
      else (.error (.unsupportedKSockType msgType), [])

/-- What happened to a connection and to the process. -/
structure ConnOutcome where
  closed : Bool
  panicked : Bool
  written : List Nat
deriving DecidableEq, Repr

/-- `handleConnection`: the deferred `conn.Close()` always runs; a failed
negotiation just returns, but a `handleCommands` error is followed by
`panic(err)` (the deferred close still runs while the panic unwinds). -/
def handleConnection (reg : CommandRegistry) (o : ByteOrder) (rnd : Nat)
    (input : List Nat) : ConnOutcome :=
  match Negotiate o rnd input with
  | (.error _, w) => ⟨true, false, w⟩
  | (.ok (o2, _proto, _nid, rest), w) =>
    match handleCommands reg o2 (rest.length + 1) rest with
    | (.error _, w2) => ⟨true, true, w ++ w2⟩
    | (.ok _, w2) => ⟨true, false, w ++ w2⟩

/-- C3 (amended): when the command loop fails because a registered handler
returned an error, the connection is closed (the deferred close runs), but
the process also panics: `handleConnection` follows the logged handler
error with `panic(err)`, so the failure is not contained to the one
connection. -/
theorem handler_error_closes_and_panics (reg : CommandRegistry) (o o2 : ByteOrder)
    (rnd : Nat) (input rest w w2 : List Nat) (proto : Nat) (nid : NID)
    (hneg : Negotiate o rnd input = (.ok (o2, proto, nid, rest), w))
    (hcmd : handleCommands reg o2 (rest.length + 1) rest = (.error .handler, w2)) :
    handleConnection reg o rnd input = ⟨true, true, w ++ w2⟩ := by
  unfold handleConnection
  rw [hneg]
  dsimp only
  rw [hcmd]

/-- A registry whose GET handler always fails (handlers are parameters of
the dispatch machinery; this instantiates one for the claim). -/
def failingGetRegistry : CommandRegistry :=
  fun t => if t = LNET_MSG_GET then some (fun _ => .error ()) else none

/-- The peer NID sent during negotiation in the concrete C3 run. -/
def c3Nid : NID := .n64 ⟨⟨0, 2, 0⟩, 1, 988⟩

/-- One KSOCK LNET frame carrying a GET message with empty payload. -/
def c3Frames : List Nat :=
  putUint .le 4 KSOCK_MSG_LNET ++ putUint .le 4 0 ++ putUint .le 8 0 ++ putUint .le 8 0 ++
    [1, 0, 0, 0, 0, 0, 2, 0] ++ [1, 0, 0, 0, 0, 0, 2, 0] ++
    putUint .le 4 1 ++ putUint .le 4 2 ++ putUint .le 4 LNET_MSG_GET ++ putUint .le 4 0 ++
    List.replicate 36 0

/-- A full little-endian connection transcript: acceptor exchange, HELLO
v2 upgrade, then the GET frame of `c3Frames`. -/
def c3Input : List Nat :=
  putUint .le 4 PROTO_MAGIC_ACCEPTOR ++ putUint .le 4 1 ++
    [1, 0, 0, 0, 0, 0, 2, 0] ++
    putUint .le 4 PROTO_MAGIC_TCP ++ putUint .le 4 2 ++ putUint .le 8 17 ++
    putUint .le 8 34 ++ CommonTail.toBytes .le ⟨12345, 12345, 57005, 0, 2, 0⟩ ++
    c3Frames

/-- The HELLO reply written during the C3 run's negotiation. -/
def c3Reply : List Nat :=
  putUint .le 4 PROTO_MAGIC_TCP ++ putUint .le 4 2 ++ putUint .le 8 34 ++
    putUint .le 8 17 ++ CommonTail.toBytes .le ⟨12345, 12345, 5, 57005, 3, 0⟩

/-- C3 counterexample: a single connection whose registered GET handler
fails makes the whole process panic — the claim that the only action taken
is closing that connection (process state unaffected) is false. -/
theorem handler_error_counterexample :
    (handleConnection failingGetRegistry .le 5 c3Input).closed = true ∧
      (handleConnection failingGetRegistry .le 5 c3Input).panicked = true :=
  ⟨rfl, rfl⟩

/-- Witness for C3 (amended) on the same concrete transcript. -/
theorem handler_error_closes_and_panics_witness :
    handleConnection failingGetRegistry .le 5 c3Input = ⟨true, true, c3Reply ++ []⟩ := by
  exact handler_error_closes_and_panics failingGetRegistry .le .le 5 c3Input c3Frames
    c3Reply [] PROTO_MAGIC_TCP c3Nid (by rfl) (by rfl)

/- ## Chunked-stream refinement of the frame decoder (`command.go`)

A TCP stream delivers data in segments; `io.Reader.Read` may return fewer
bytes than requested at a segment boundary.  `ChunkStream` models the
segment arrivals: `binary.Read` (which loops via `io.ReadFull`) crosses
chunk boundaries, while the single raw `conn.Read` call in `ReadCommand`'s
payload path returns only what the current segment holds. -/

def ChunkStream : Type := List (List Nat)

/-- `io.ReadFull` semantics over chunks: exactly `n` bytes or failure;
fully consumed chunks disappear. -/
def readFullC (n : Nat) : ChunkStream → Option (List Nat × ChunkStream)
  | [] => if n = 0 then some ([], []) else none
  | c :: rest =>
    if n ≤ c.length then
      some (c.take n, if n < c.length then c.drop n :: rest else rest)
    else
      match readFullC (n - c.length) rest with
      | none => none
      | some (bs, s) => some (c ++ bs, s)

/-- A single `conn.Read` with a buffer of `bufLen` bytes: returns what the
current segment holds, up to the buffer size; end of stream is `io.EOF`. -/
def connReadC (bufLen : Nat) : ChunkStream → Option (List Nat × ChunkStream)
  | [] => none
  | c :: rest =>
    some (c.take bufLen, if bufLen < c.length then c.drop bufLen :: rest else rest)

/-- `ReadNID` over a chunked stream (same logic, `io.ReadFull` reads). -/
def ReadNIDChunked (o : ByteOrder) (input : ChunkStream) :
    Except NIDReadErr (NID × ChunkStream) :=
  match readFullC 8 input with
  | none => .error .readHeader
  | some (hb, rest) =>
    let rawHeader := getUint o hb
    let addr0 := rawHeader &&& 0xFFFFFFFF
    let size := (rawHeader >>> 56) &&& 0xFF
    let type := (rawHeader >>> 48) &&& 0xFF
    let networkIndex := (rawHeader >>> 32) &&& 0xFFFF
    if type = NETWORK_TYPE_ANY then .ok (AnyNID, rest)
    else if size = 0 then
      .ok (.n64 ⟨⟨size, type, networkIndex⟩, addr0, DEFAULT_PORT⟩, rest)
    else if size = 2 then .error .ipv4PortUnsupported
    else if size = 12 then
      match readFullC 12 rest with
      | none => .error .extendedAddrRead
      | some (ab, rest2) =>
        let a1 := getUint o (ab.take 4)
        let a2 := getUint o ((ab.drop 4).take 4)
        let a3 := getUint o (ab.drop 8)
        .ok (.ext ⟨⟨size, type, networkIndex⟩, addr0, a1, a2, a3, DEFAULT_PORT⟩, rest2)
    else if size = 14 then .error .ipv6PortUnsupported
    else .error (.unsupportedSize size)

/-- The typed-body read over a chunked stream. -/
def readCommandBodyChunked (o : ByteOrder) (t : Nat) (input : ChunkStream) :
    Except CmdErr (LNetCommandVal × ChunkStream) :=
  if t = LNET_MSG_ACK then
    match readFullC 28 input with
    | none => .error .bodyRead
    | some (bs, rest) =>
      .ok (.ack ⟨getUint o (bs.take 8), getUint o ((bs.drop 8).take 8)⟩
        (getUint o ((bs.drop 16).take 8)) (getUint o (bs.drop 24)), rest)
  else if t = LNET_MSG_PUT then
    match readFullC 40 input with
    | none => .error .bodyRead
    | some (bs, rest) =>
      .ok (.put ⟨getUint o (bs.take 8), getUint o ((bs.drop 8).take 8)⟩
        (getUint o ((bs.drop 16).take 8)) (getUint o ((bs.drop 24).take 8))
        (getUint o ((bs.drop 32).take 4)) (getUint o (bs.drop 36)), rest)
  else if t = LNET_MSG_GET then
    match readFullC 36 input with
    | none => .error .bodyRead
    | some (bs, rest) =>
      .ok (.get ⟨⟨getUint o (bs.take 8), getUint o ((bs.drop 8).take 8)⟩,
        getUint o ((bs.drop 16).take 8), getUint o ((bs.drop 24).take 4),
        getUint o ((bs.drop 28).take 4), getUint o (bs.drop 32)⟩, rest)
  else if t = LNET_MSG_REPLY then
    match readFullC 16 input with
    | none => .error .bodyRead
    | some (bs, rest) => .ok (.reply ⟨getUint o (bs.take 8), getUint o (bs.drop 8)⟩, rest)
  else if t = LNET_MSG_HELLO then
    match readFullC 12 input with
    | none => .error .bodyRead
    | some (bs, rest) => .ok (.hello (getUint o (bs.take 8)) (getUint o (bs.drop 8)), rest)
  else .error (.unsupportedType t)

/-- `ReadCommand` over a chunked stream.  All header and body reads go
through `binary.Read` (full reads); the payload is read by a single
`conn.Read` into `make([]byte, payload_length)` whose returned byte count
is ignored, so a payload split across segments comes back truncated and
zero-padded while the remaining payload bytes stay in the stream. -/
def ReadCommandChunked (o : ByteOrder) (input : ChunkStream) :
    Except CmdErr (LNetMessage × ChunkStream) :=
  match ReadNIDChunked o input with
  | .error e => .error (.nidRead e)
  | .ok (destNID, r1) =>
    match ReadNIDChunked o r1 with
    | .error e => .error (.nidRead e)
    | .ok (sourceNID, r2) =>
      match readFullC 16 r2 with
      | none => .error .tailRead
      | some (tb, r3) =>
        let destPID := getUint o (tb.take 4)
        let sourcePID := getUint o ((tb.drop 4).take 4)
        let messageType := getUint o ((tb.drop 8).take 4)
        let payloadLength := getUint o (tb.drop 12)
        match readCommandBodyChunked o messageType r3 with
        | .error e => .error e
        | .ok (cmd, r4) =>
          if payloadLength > 0 then
            match connReadC payloadLength r4 with
            | none => .error .payloadRead
            | some (bs, r5) =>
              .ok (⟨destNID, sourceNID, destPID, sourcePID, messageType, payloadLength,
                some cmd, bs ++ List.replicate (payloadLength - bs.length) 0⟩, r5)
          else
            .ok (⟨destNID, sourceNID, destPID, sourcePID, messageType, payloadLength,
              some cmd, []⟩, r4)

/-- The C5 failing input: a GET frame whose header promises a 2-byte
payload, with the payload arriving as two separate segments. -/
def c5Stream : ChunkStream :=
  [[1, 0, 0, 0, 0, 0, 2, 0] ++ [1, 0, 0, 0, 0, 0, 2, 0] ++ putUint .le 4 1 ++
    putUint .le 4 2 ++ putUint .le 4 LNET_MSG_GET ++ putUint .le 4 2 ++
    List.replicate 36 0, [170], [187]]

/-- C5: evaluating the decoder at the failing input.  With
`payload_length = 2` and payload bytes `[170, 187]` split across two
segments, the decoded payload is `[170, 0]` (first segment plus zero fill)
and the second payload byte `187` is left unconsumed in the stream —
the frame codec neither consumes exactly 2 bytes nor returns those 2
bytes. -/
theorem readCommand_short_read_divergence :
    ReadCommandChunked .le c5Stream
      = .ok (⟨.n64 ⟨⟨0, 2, 0⟩, 1, 988⟩, .n64 ⟨⟨0, 2, 0⟩, 1, 988⟩, 1, 2, 2, 2,
          some (.get ⟨⟨0, 0⟩, 0, 0, 0, 0⟩), [170, 0]⟩, [[187]]) ∧
      [170, 0] ≠ [170, 187] :=
  ⟨rfl, by decide⟩

/- ## GET dispatch and PING (`command.go` HandleGet, `ping.go`) -/

/-- `netip.Addr.IsUnspecified`. -/
def Addr.isUnspecified : Addr → Bool
  | .v4 bs => bs == [0, 0, 0, 0]
  | .v6 bs => bs == List.replicate 16 0

/-- `netip.Addr.AsSlice`. -/
def Addr.asSlice : Addr → List Nat
  | .v4 bs => bs
  | .v6 bs => bs

/-- `NIDFromAddr`: the wildcard for an unspecified address, a compact NID
for IPv4 (the address word assembled with `DEFAULT_BYTE_ORDER`), an
extended NID for IPv6; a zero port is replaced by the default. -/
def NIDFromAddr (addr : Addr) (netType netNum portNum : Nat) : Except Unit NID :=
  if addr.isUnspecified then .ok AnyNID
  else
    let addrBytes := addr.asSlice
    let portNum := if portNum = 0 then DEFAULT_PORT else portNum
    let size := addrBytes.length - 4
    match addr with
    | .v4 _ =>
      .ok (.n64 ⟨⟨size, netType, netNum⟩, getUint DEFAULT_BYTE_ORDER addrBytes, portNum⟩)
    | .v6 _ =>
      .ok (.ext ⟨⟨size, netType, netNum⟩,
        getUint DEFAULT_BYTE_ORDER (addrBytes.take 4),
        getUint DEFAULT_BYTE_ORDER ((addrBytes.drop 4).take 4),
        getUint DEFAULT_BYTE_ORDER ((addrBytes.drop 8).take 4),
        getUint DEFAULT_BYTE_ORDER ((addrBytes.drop 12).take 4), portNum⟩)

/-- `LNetMessage.GetReply`: the REPLY for a GET message, with NIDs and
PIDs swapped and the GET's return descriptor echoed; the type assertion
on the command panics (`none`) for a non-GET message. -/
def LNetMessage.GetReply (m : LNetMessage) : Option LNetMessage :=
  match m.command with
  | some (.get command) =>
    some ⟨m.sourceNID, m.destNID, m.sourcePID, m.destPID, LNET_MSG_REPLY, 0,
      some (.reply command.returnWMD), []⟩
  | _ => none

/-- `LNetMessage.SetPayload` for a byte-slice payload: `binary.Write` of a
`[]byte` emits the bytes unchanged, and the length field is updated. -/
def LNetMessage.SetPayload (m : LNetMessage) (p : List Nat) : LNetMessage :=
  { m with payload := p, payloadLength := p.length }

/-- `NIDStatus` from the source. -/
structure NIDStatus where
  nid : NID
  status : Nat
  messageSize : Nat
deriving DecidableEq, Repr

/-- `PingResponse` (header fields inlined; `NIDCount` is recomputed at
encode time). -/
structure PingResponse where
  magic : Nat
  features : Nat
  pid : Nat
  nidStatuses : List NIDStatus
deriving DecidableEq, Repr

/-- `PingResponse.ToBytes`: header with the recomputed NID count, then
each status record (NID wire bytes, status word, message size). -/
def PingResponse.ToBytes (o : ByteOrder) (p : PingResponse) : List Nat :=
  putUint o 4 p.magic ++ putUint o 4 p.features ++ putUint o 4 p.pid ++
    putUint o 4 p.nidStatuses.length ++
    (p.nidStatuses.map fun st =>
      st.nid.ToBytes o ++ putUint o 4 st.status ++ putUint o 4 st.messageSize).flatten

/-- The per-connection client configuration the PING handler reads. -/
structure LNetClientState where
  port : Nat
  localAddrs : List Addr
deriving DecidableEq, Repr

/-- What a concrete handler invocation does. -/
inductive HandlerResult where
  | ok (written : List Nat)
  | err (e : String)
  | panicked
deriving DecidableEq, Repr

/-- The KSOCK header of an outgoing LNET frame (zero checksum/cookies). -/
def ksockLNetHeader (o : ByteOrder) : List Nat :=
  putUint o 4 KSOCK_MSG_LNET ++ putUint o 4 0 ++ putUint o 8 0 ++ putUint o 8 0

/-- Modelled from the spec: `SendMessage` is not under `src/` (only its
call site in `HandlePing` is); per the spec's frame codec, a reply is
emitted as a KSOCK LNET header followed by the encoded message, in full,
on the connection. -/
def SendMessage (o : ByteOrder) (m : LNetMessage) : Except MsgWriteErr (List Nat) :=
  match m.ToBytes o with
  | .error e => .error e
  | .ok bs => .ok (ksockLNetHeader o ++ bs)

/-- The loop of `HandlePing` that builds one UP status per local address,
propagating `NIDFromAddr` failures. -/
def buildNIDStatuses (port : Nat) : List Addr → Except Unit (List NIDStatus)
  | [] => .ok []
  | a :: rest =>
    match NIDFromAddr a NETWORK_TYPE_TCP 0 port with
    | .error _ => .error ()
    | .ok nid =>
      match buildNIDStatuses port rest with
      | .error e => .error e
      | .ok sts => .ok (⟨nid, PING_NI_STATUS_UP, 0⟩ :: sts)

/-- `HandlePing`: reject wrong match bits, warn (only) on a non-zero
portal index, then compose the REPLY with the serialized PING response as
payload and send it. -/
def HandlePing (client : LNetClientState) (o : ByteOrder) (m : LNetMessage)
    (command : LNetGetCommand) : HandlerResult :=
  if command.matchBits ≠ LNET_PROTO_PING_MATCHBITS then
    .err "LNET PING has invalid match bits"
  else
    match m.GetReply with
    | none => .panicked
    | some replyMessage =>
      match buildNIDStatuses client.port client.localAddrs with
      | .error _ => .err "error creating NID from address"
      | .ok statuses =>
        let pingResponse : PingResponse :=
          ⟨LNET_PING_MAGIC, PING_FEATURE_PING ||| PING_FEATURE_NI_STATUS, m.destPID,
            statuses⟩
        let payload := pingResponse.ToBytes o
        match SendMessage o (replyMessage.SetPayload payload) with
        | .error _ => .err "failed to send"
        | .ok w => .ok w

/-- `HandleGet`, the registered GET handler: dispatch to `HandlePing` only
when the match bits carry the PING constant; otherwise return success with
no action.  The type assertion panics for a non-GET command. -/
def HandleGet (client : LNetClientState) (o : ByteOrder) (m : LNetMessage) :
    HandlerResult :=
  match m.command with
  | some (.get command) =>
    if command.matchBits == LNET_PROTO_PING_MATCHBITS then HandlePing client o m command
    else .ok []
  | _ => .panicked

/-- C6 (amended): for a decoded GET message whose match bits differ from
the PING constant, the registered GET handler does not fail — it returns
success without any action; only `HandlePing` itself (reached solely for
the PING constant) rejects wrong match bits. -/
theorem handleGet_non_ping_succeeds (client : LNetClientState) (o : ByteOrder)
    (m : LNetMessage) (g : LNetGetCommand) (hc : m.command = some (.get g))
    (hmb : g.matchBits ≠ LNET_PROTO_PING_MATCHBITS) :
    HandleGet client o m = .ok [] ∧
      HandlePing client o m g = .err "LNET PING has invalid match bits" := by
  constructor
  · unfold HandleGet
    rw [hc]
    simp only [beq_iff_eq]
    rw [if_neg hmb]
  · unfold HandlePing
    rw [if_pos hmb]

/-- Witness for C6 (amended) at a concrete non-PING GET message. -/
theorem handleGet_non_ping_succeeds_witness :
    HandleGet ⟨988, []⟩ .le
        ⟨.n64 ⟨⟨0, 2, 0⟩, 1, 988⟩, .n64 ⟨⟨0, 2, 0⟩, 1, 988⟩, 1, 2, LNET_MSG_GET, 0,
          some (.get ⟨⟨0, 0⟩, 5, 0, 0, 0⟩), []⟩ = .ok [] ∧
      HandlePing ⟨988, []⟩ .le
        ⟨.n64 ⟨⟨0, 2, 0⟩, 1, 988⟩, .n64 ⟨⟨0, 2, 0⟩, 1, 988⟩, 1, 2, LNET_MSG_GET, 0,
          some (.get ⟨⟨0, 0⟩, 5, 0, 0, 0⟩), []⟩ ⟨⟨0, 0⟩, 5, 0, 0, 0⟩
        = .err "LNET PING has invalid match bits" := by
  exact handleGet_non_ping_succeeds ⟨988, []⟩ .le _ ⟨⟨0, 0⟩, 5, 0, 0, 0⟩ rfl (by decide)

/-- C6 counterexample: the registered GET handler returns success (`nil`),
not a failure, for a GET whose match bits (0) are not the PING constant —
the claim that it "verifies the match bits and fails otherwise" is false. -/
theorem handleGet_no_verify_counterexample :
    HandleGet ⟨988, []⟩ .le
        ⟨.n64 ⟨⟨0, 2, 0⟩, 1, 988⟩, .n64 ⟨⟨0, 2, 0⟩, 1, 988⟩, 1, 2, LNET_MSG_GET, 0,
          some (.get ⟨⟨0, 0⟩, 0, 0, 0, 0⟩), []⟩ = .ok [] :=
  rfl

/- ## NID string parsing (`netid.go` ParseNID) -/

/-- `NetworkTypeFromString` from the source. -/
def NetworkTypeFromString (s : String) : Except Unit Nat :=
  let s := String.mk (s.data.map Char.toLower)
  if s = "tcp" then .ok NETWORK_TYPE_TCP
  else if s = "o2ib" then .ok NETWORK_TYPE_O2IB
  else if s = "lo" then .ok NETWORK_TYPE_LO
  else .error ()

/-- Decimal digit-string value (`strconv.ParseUint` body, base 10). -/
def digitsToNat (ds : List Char) : Nat :=
  ds.foldl (fun acc c => acc * 10 + (c.toNat - 48)) 0

/-- `strconv.ParseUint(s, 10, 16)`: decimal digits fitting in 16 bits. -/
def parseUint16 (cs : List Char) : Except Unit Nat :=
  if cs ≠ [] ∧ cs.all Char.isDigit then
    if digitsToNat cs < 65536 then .ok (digitsToNat cs) else .error ()
  else .error ()

/-- A character of the regex address class `[0-9a-fA-F:.]`. -/
def isAddrChar (c : Char) : Bool :=
  c.isDigit || ('a' ≤ c && c ≤ 'f') || ('A' ≤ c && c ≤ 'F') || c == ':' || c == '.'

/-- A character of the regex class `[a-zA-Z0-9]`. -/
def isAlnumChar (c : Char) : Bool := c.isAlpha || c.isDigit

/-- The match of `ValidNIDExpr`
(`^([0-9a-fA-F:.]+)@([a-zA-Z0-9]+[a-zA-Z])(\d+)(?:#(\d{1,5}))?$`) as a
deterministic decomposition: since no character class contains `@` or `#`,
the string splits at the unique `@` (and optional `#`), and the greedy
`([a-zA-Z0-9]+[a-zA-Z])(\d+)` split puts the maximal trailing digit run in
the third group. -/
def matchNIDExpr (s : String) : Option (List Char × List Char × List Char × Option (List Char)) :=
  match s.data.splitOn '@' with
  | [addrCs, restCs] =>
    if addrCs ≠ [] ∧ addrCs.all isAddrChar then
      let checkProtoNum := fun (pn : List Char) (port : Option (List Char)) =>
        let ds := (pn.reverse.takeWhile Char.isDigit).reverse
        let proto := pn.take (pn.length - ds.length)
        if !ds.isEmpty && 2 ≤ proto.length && proto.all isAlnumChar &&
            (match proto.getLast? with | some c => c.isAlpha | none => false) then
          some (addrCs, proto, ds, port)
        else none
      match restCs.splitOn '#' with
      | [pn] => checkProtoNum pn none
      | [pn, pt] =>
        if pt ≠ [] ∧ pt.length ≤ 5 ∧ pt.all Char.isDigit then checkProtoNum pn (some pt)
        else none
      | _ => none
    else none
  | _ => none

/-- One octet of a dotted quad under `net/netip` rules: 1-3 decimal
digits, no leading zero, value at most 255. -/
def parseIPv4Octet (cs : List Char) : Option Nat :=
  if cs ≠ [] ∧ cs.length ≤ 3 ∧ cs.all Char.isDigit ∧
      (cs.length = 1 ∨ cs.headD '0' ≠ '0') then
    if digitsToNat cs ≤ 255 then some (digitsToNat cs) else none
  else none

/-- `netip.ParseAddr` restricted to IPv4 dotted-quad text.  IPv6 textual
forms are not modelled: the claims evaluated here only exercise IPv4
strings (and the IPv6 NID path panics in `NetAddr` before any string
round-trip can be observed). -/
def parseAddr (s : String) : Except Unit Addr :=
  match s.data.splitOn '.' with
  | [a, b, c, d] =>
    match parseIPv4Octet a, parseIPv4Octet b, parseIPv4Octet c, parseIPv4Octet d with
    | some oa, some ob, some oc, some od => .ok (.v4 [oa, ob, oc, od])
    | _, _, _, _ => .error ()
  | _ => .error ()

/-- `ParseNID`: the literals `any`/`*`, otherwise the regex decomposition
followed by network-type, network-number, port and address parsing and
`NIDFromAddr`. -/
def ParseNID (s : String) : Except Unit NID :=
  if s = "any" ∨ s = "*" then .ok AnyNID
  else
    match matchNIDExpr s with
    | none => .error ()
    | some (addrCs, protoCs, netNumCs, portCs) =>
      match NetworkTypeFromString (String.mk protoCs) with
      | .error _ => .error ()
      | .ok networkType =>
        match parseUint16 netNumCs with
        | .error _ => .error ()
        | .ok networkNum =>
          match (match portCs with
                 | none => (.ok DEFAULT_PORT : Except Unit Nat)
                 | some pt => parseUint16 pt) with
          | .error _ => .error ()
          | .ok portNum =>
            match parseAddr (String.mk addrCs) with
            | .error _ => .error ()
            | .ok addr => NIDFromAddr addr networkType networkNum portNum

/-- C7: evaluating the code at the failing input `"127.0.0.1@tcp0"`.
`ParseNID` packs the address bytes with `DEFAULT_BYTE_ORDER` (the host
order, little-endian) into the NID word, but `NetAddr`/`String` unpack it
big-endian, so the parsed NID prints as `1.0.0.127@tcp0#988`: neither
`parse(String(nid)) = nid` nor `String(parse(s)) = s` holds, even up to
default-port elision. -/
theorem parseNID_string_roundtrip_bug :
    ParseNID "127.0.0.1@tcp0" = .ok (.n64 ⟨⟨0, 2, 0⟩, 16777343, 988⟩) ∧
      NID.stringOpt (.n64 ⟨⟨0, 2, 0⟩, 16777343, 988⟩) = some "1.0.0.127@tcp0#988" ∧
      ("1.0.0.127@tcp0#988" : String) ≠ "127.0.0.1@tcp0" ∧
      ("1.0.0.127@tcp0#988" : String) ≠ "127.0.0.1@tcp0#988" ∧
      ParseNID "1.0.0.127@tcp0#988" = .ok (.n64 ⟨⟨0, 2, 0⟩, 2130706433, 988⟩) ∧
      (NID.n64 ⟨⟨0, 2, 0⟩, 2130706433, 988⟩) ≠ .n64 ⟨⟨0, 2, 0⟩, 16777343, 988⟩ := by
  refine ⟨rfl, rfl, by decide, by decide, rfl, by decide⟩
